import Mathlib

/-!
Verification development for the `keepassxc_otp` Home Assistant custom
component.  The definitions below are a shallow embedding of the Python
sources under `custom_components/keepassxc_otp/` (`config_flow.py`,
`sensor.py`, `const.py`).  Python-stdlib routines the sources call
(`urllib.parse.urlparse`, `urllib.parse.parse_qs`, `int`, `str.upper`,
`str.strip`, the two `re` patterns) are modelled here at the fidelity the
sources rely on (ASCII data); the `pyotp` code generator, which is not part
of the repository, is modelled from the spec.
-/

namespace KeepassxcOtp

/-! ## Basic character and list-of-character utilities -/

/-- ASCII whitespace, the set matched by `\s` in the source's regexes and
stripped by Python's `str.strip()` / `int()` for ASCII data. -/
def isPyWs (c : Char) : Bool :=
  c = ' ' || c = '\t' || c = '\n' || c = '\r' || c = '\x0b' || c = '\x0c'

/-- Python `str.upper()` restricted to ASCII, which is all the source feeds it. -/
def upChar (c : Char) : Char :=
  if 'a' ≤ c ∧ c ≤ 'z' then Char.ofNat (c.toNat - 32) else c

/-- Python `str.lower()` restricted to ASCII. -/
def lowChar (c : Char) : Char :=
  if 'A' ≤ c ∧ c ≤ 'Z' then Char.ofNat (c.toNat + 32) else c

def upperStr (s : String) : String := String.mk (s.data.map upChar)

def lowerStr (s : String) : String := String.mk (s.data.map lowChar)

/-- Does `l` start with `p`? -/
def lcStarts : List Char → List Char → Bool
  | _, [] => true
  | [], _ :: _ => false
  | a :: as, b :: bs => a = b && lcStarts as bs

/-- Python's `pat in s` substring test. -/
def lcContains : List Char → List Char → Bool
  | [], pat => pat.isEmpty
  | s@(_ :: t), pat => lcStarts s pat || lcContains t pat

def containsSubstr (s pat : String) : Bool := lcContains s.data pat.data

def strStarts (s pat : String) : Bool := lcStarts s.data pat.data

/-- Python `str.strip()` (ASCII whitespace). -/
def pyStrip (s : String) : String :=
  String.mk (((s.data.dropWhile isPyWs).reverse.dropWhile isPyWs).reverse)

/-- Split a list at the first occurrence of `c`; `none` when `c` is absent.
Models Python `str.split(c, 1)` / `str.find(c)`. -/
def splitOnceChar (c : Char) : List Char → Option (List Char × List Char)
  | [] => none
  | x :: t =>
    if x = c then some ([], t)
    else match splitOnceChar c t with
      | some (a, b) => some (x :: a, b)
      | none => none

/-- Split a list on every occurrence of `c`, Python `str.split(c)`. -/
def splitSep (c : Char) : List Char → List (List Char)
  | [] => [[]]
  | x :: t =>
    if x = c then [] :: splitSep c t
    else match splitSep c t with
      | [] => [[x]]
      | h :: r => (x :: h) :: r

/-! ## Python `int()` model (ASCII) -/

def digitVal (c : Char) : Nat := c.toNat - 48

/-- Digit string body after the optional sign: digits with single
underscores strictly between digits (Python 3 numeric literals). -/
def validIntTail : List Char → Bool
  | [] => true
  | '_' :: c :: rest => c.isDigit && validIntTail (c :: rest)
  | c :: rest => c.isDigit && validIntTail rest

def validIntBody : List Char → Bool
  | [] => false
  | c :: rest => c.isDigit && validIntTail (c :: rest)

def natOfDigits (l : List Char) : Nat :=
  l.foldl (fun acc c => 10 * acc + digitVal c) 0

/-- Model of Python `int(s)` on ASCII strings: strips whitespace, accepts an
optional sign and a digit body with underscore separators, raises
(= `none`) otherwise. -/
def pyInt (s : String) : Option Int :=
  let l := ((s.data.dropWhile isPyWs).reverse.dropWhile isPyWs).reverse
  match l with
  | '+' :: r => if validIntBody r then some (Int.ofNat (natOfDigits (r.filter (· ≠ '_')))) else none
  | '-' :: r => if validIntBody r then some (-(Int.ofNat (natOfDigits (r.filter (· ≠ '_'))))) else none
  | r => if validIntBody r then some (Int.ofNat (natOfDigits (r.filter (· ≠ '_')))) else none

/-! ## `urllib.parse.urlparse` model -/

structure UrlParts where
  scheme : String
  netloc : String
  path : String
  query : String
  fragment : String
deriving Repr, DecidableEq

/-- `urlsplit` removes ASCII tab/CR/LF anywhere in the URL. -/
def removeUnsafe (l : List Char) : List Char :=
  l.filter (fun c => c ≠ '\t' && c ≠ '\r' && c ≠ '\n')

/-- `urlsplit` strips leading and trailing C0-control-or-space characters. -/
def stripC0 (l : List Char) : List Char :=
  ((l.dropWhile (· ≤ ' ')).reverse.dropWhile (· ≤ ' ')).reverse

def isSchemeChar (c : Char) : Bool := c.isAlphanum || c = '+' || c = '-' || c = '.'

def validScheme : List Char → Bool
  | [] => false
  | c :: rest => c.isAlpha && (c :: rest).all isSchemeChar

def notNetlocDelim (c : Char) : Bool := c ≠ '/' && c ≠ '?' && c ≠ '#'

/-- Model of `urllib.parse.urlparse` for the components the source reads
(scheme, netloc, path, query). -/
def urlparseModel (s : String) : UrlParts :=
  let l := stripC0 (removeUnsafe s.data)
  let p1 : List Char × List Char :=
    match splitOnceChar ':' l with
    | some (pre, post) => if validScheme pre then (pre.map lowChar, post) else ([], l)
    | none => ([], l)
  let scheme := p1.1
  let p2 : List Char × List Char :=
    match p1.2 with
    | '/' :: '/' :: r =>
      let n := r.takeWhile notNetlocDelim
      (n, r.drop n.length)
    | rest => ([], rest)
  let netloc := p2.1
  let p3 : List Char × List Char :=
    match splitOnceChar '#' p2.2 with
    | some (a, b) => (a, b)
    | none => (p2.2, [])
  let frag := p3.2
  let p4 : List Char × List Char :=
    match splitOnceChar '?' p3.1 with
    | some (a, b) => (a, b)
    | none => (p3.1, [])
  ⟨String.mk scheme, String.mk netloc, String.mk p4.1, String.mk p4.2, String.mk frag⟩

/-! ## `urllib.parse.parse_qs` model -/

def hexVal (c : Char) : Option Nat :=
  if '0' ≤ c ∧ c ≤ '9' then some (c.toNat - 48)
  else if 'a' ≤ c ∧ c ≤ 'f' then some (c.toNat - 87)
  else if 'A' ≤ c ∧ c ≤ 'F' then some (c.toNat - 55)
  else none

/-- Python `urllib.parse.unquote_plus`: `+` becomes space, `%XX` is decoded,
invalid escapes pass through. -/
def unquotePlus : List Char → List Char
  | [] => []
  | c :: t =>
    if c = '+' then ' ' :: unquotePlus t
    else if c = '%' then
      match t with
      | a :: b :: t2 =>
        match hexVal a, hexVal b with
        | some x, some y => Char.ofNat (16 * x + y) :: unquotePlus t2
        | _, _ => '%' :: unquotePlus (a :: b :: t2)
      | t3 => '%' :: unquotePlus t3
    else c :: unquotePlus t

/-- One `name=value` pair of a query string; pairs without `=` and pairs
with a blank value are dropped (`keep_blank_values=False`). -/
def pairOf (seg : List Char) : Option (String × String) :=
  if seg.isEmpty then none
  else match splitOnceChar '=' seg with
    | none => none
    | some (n, v) =>
      if v.isEmpty then none
      else some (String.mk (unquotePlus n), String.mk (unquotePlus v))

/-- Model of `parse_qs`: the flat ordered pair list; `d.get(k, [x])[0]`
corresponds to the first pair with key `k`. -/
def parseQsModel (q : String) : List (String × String) :=
  (splitSep '&' q.data).filterMap pairOf

def getParam (params : List (String × String)) (k : String) : Option String :=
  (params.find? (fun p => p.1 = k)).map (·.2)

def getParamD (params : List (String × String)) (k dflt : String) : String :=
  (getParam params k).getD dflt

/-! ## `_parse_otpauth_uri` (config_flow.py lines 232-281) -/

/-- The dict returned by `_parse_otpauth_uri` (field `type` is spelled
`otype`; `url`/`username` are added later by `_extract_otp_from_entry`). -/
structure OtpData where
  secret : String
  issuer : Option String
  account : String
  period : Int
  digits : Int
  algorithm : String
  otype : String
  url : Option String := none
  username : Option String := none
deriving Repr, DecidableEq

/-- `label = parsed.path.lstrip("/")`. -/
def labelOf (path : String) : String :=
  String.mk (path.data.dropWhile (· = '/'))

/-- `if ":" in label: issuer, account = label.split(":", 1)`. -/
def splitLabel (label : String) : Option String × String :=
  match splitOnceChar ':' label.data with
  | some (i, a) => (some (String.mk i), String.mk a)
  | none => (none, label)

/-- Core of `_parse_otpauth_uri` after `urlparse`: the `int()` calls may
raise, which the source's `except` turns into `None`. -/
def parseWithParams (otype : String) (label : String)
    (params : List (String × String)) : Option OtpData :=
  match getParam params "secret" with
  | none => none
  | some secret =>
    match pyInt (getParamD params "period" "30"), pyInt (getParamD params "digits" "6") with
    | some period, some digits =>
      some { secret := secret
             issuer := match getParam params "issuer" with
               | some i => some i
               | none => (splitLabel label).1
             account := (splitLabel label).2
             period := period
             digits := digits
             algorithm := getParamD params "algorithm" "SHA1"
             otype := otype }
    | _, _ => none

/-- `_parse_otpauth_uri(uri, entry_name)`; `entry_name` is only logged. -/
def parse_otpauth_uri (uri : String) : Option OtpData :=
  if (urlparseModel uri).scheme ≠ "otpauth" then none
  else if (urlparseModel uri).netloc ≠ "totp" ∧ (urlparseModel uri).netloc ≠ "hotp" then none
  else parseWithParams (urlparseModel uri).netloc (labelOf (urlparseModel uri).path)
        (parseQsModel (urlparseModel uri).query)

/-! ## KeePass entry model and `_has_references` (config_flow.py lines 70-106) -/

/-- A pykeepass entry as the source reads it: optional string fields are
`None`-able in Python; `custom_properties` is an ordered dict. -/
structure KpEntry where
  title : String
  username : Option String := none
  passwd : Option String := none
  url : Option String := none
  notes : Option String := none
  custom_properties : List (String × String) := []
  otp : Option String := none
  uuid : String
deriving Repr, DecidableEq

/-- Python truthiness of an optional string. -/
def truthy : Option String → Bool
  | none => false
  | some s => !s.isEmpty

/-- `"{REF:" in str(x).upper()`. -/
def hasRef (s : String) : Bool := containsSubstr (upperStr s) "\x7bREF:"

def optHasRef : Option String → Bool
  | none => false
  | some s => !s.isEmpty && hasRef s

/-- `_has_references(entry)`. -/
def has_references (e : KpEntry) : Bool :=
  (!e.title.isEmpty && hasRef e.title)
  || optHasRef e.username
  || optHasRef e.passwd
  || optHasRef e.url
  || optHasRef e.notes
  || e.custom_properties.any (fun p => !p.2.isEmpty && hasRef p.2)

/-! ## OTP URI lookup inside an entry (config_flow.py lines 125-147) -/

/-- The loop over `custom_properties`: a property named otp/totp/otpauth is
taken unless its value is truthy and contains a reference, in which case the
loop `continue`s. -/
def findOtpProp : List (String × String) → Option String
  | [] => none
  | (n, v) :: rest =>
    if lowerStr n = "otp" ∨ lowerStr n = "totp" ∨ lowerStr n = "otpauth" then
      if !v.isEmpty && hasRef v then findOtpProp rest else some v
    else findOtpProp rest

/-- The `otp_uri` value after the property loop and the `entry.otp`
fallback; `none` exactly when the final `if not otp_uri` fires. -/
def otpUriOf (e : KpEntry) : Option String :=
  let fromProps : Option String :=
    match findOtpProp e.custom_properties with
    | some v => if v.isEmpty then none else some v
    | none => none
  match fromProps with
  | some v => some v
  | none =>
    match e.otp with
    | some o => if !o.isEmpty && !hasRef o then some o else none
    | none => none

/-! ## Simple-key fallback (config_flow.py lines 149-179) -/

/-- `[A-Z2-7]` with `re.IGNORECASE`. -/
def isB32ci (c : Char) : Bool :=
  ('A' ≤ c && c ≤ 'Z') || ('a' ≤ c && c ≤ 'z') || ('2' ≤ c && c ≤ '7')

/-- Try to match `key\s*=\s*([A-Z2-7]+)` (IGNORECASE) at the head of `l`,
returning the captured group. -/
def matchKeyAt (l : List Char) : Option (List Char) :=
  match l with
  | c1 :: c2 :: c3 :: rest =>
    if lowChar c1 = 'k' ∧ lowChar c2 = 'e' ∧ lowChar c3 = 'y' then
      match rest.dropWhile isPyWs with
      | '=' :: r2 =>
        let grp := (r2.dropWhile isPyWs).takeWhile isB32ci
        if grp.isEmpty then none else some grp
      | _ => none
    else none
  | _ => none

/-- `re.search(r'key\s*=\s*([A-Z2-7]+)', s, re.IGNORECASE)`: leftmost match. -/
def searchKey : List Char → Option (List Char)
  | [] => none
  | l@(_ :: t) =>
    match matchKeyAt l with
    | some g => some g
    | none => searchKey t

/-- `[A-Z2-7]` without flags: the plain-base32 `re.match` on
config_flow.py line 162 passes no `re.IGNORECASE`, so it is
case-sensitive. -/
def isB32upper (c : Char) : Bool :=
  ('A' ≤ c && c ≤ 'Z') || ('2' ≤ c && c ≤ '7')

/-- `re.match(r'^[A-Z2-7]+=*$', s)` — no flags, case-sensitive. -/
def isPlainB32 (l : List Char) : Bool :=
  !(l.takeWhile isB32upper).isEmpty && (l.dropWhile isB32upper).all (fun c => c = '=')

def replChar (a b : Char) (s : String) : String :=
  String.mk (s.data.map fun c => if c = a then b else c)

/-- `account_name = entry.title.replace(":", "_").replace("/", "_")`. -/
def sanitizeTitle (title : String) : String :=
  replChar '/' '_' (replChar ':' '_' title)

/-- The f-string constructing a full otpauth URI from a simple key. -/
def constructedUri (title secret : String) : String :=
  "otpauth://totp/" ++ sanitizeTitle title ++ "?secret=" ++ secret
    ++ "&period=30&digits=6&algorithm=SHA1"

/-- The branch of `_extract_otp_from_entry` handling an OTP value that does
not start with `otpauth://`: either an error code or the constructed URI. -/
def simpleKeyUri (title uri0 : String) : Except String String :=
  match searchKey uri0.data with
  | some grp =>
    let secret := String.mk (grp.map upChar)
    if secret.isEmpty ∨ secret.length < 16 then Except.error "no_secret_found"
    else Except.ok (constructedUri title secret)
  | none =>
    let st := pyStrip uri0
    if isPlainB32 st.data then
      let secret := upperStr st
      if secret.isEmpty ∨ secret.length < 16 then Except.error "no_secret_found"
      else Except.ok (constructedUri title secret)
    else Except.error "simple_key_not_supported"

/-! ## `_extract_otp_from_entry` (config_flow.py lines 109-203) -/

/-- Result of `_extract_otp_from_entry`: Python `None`, a `{"error": ...}`
dict, or the OTP data dict. -/
inductive ExtractOutcome where
  | noOtp
  | err (code : String)
  | ok (d : OtpData)
deriving Repr, DecidableEq

/-- Entry URL attached to the OTP data (reference values dropped). -/
def entryUrlOpt (e : KpEntry) : Option String :=
  match e.url with
  | some u => if !u.isEmpty && !hasRef u then some u else none
  | none => none

def entryUserOpt (e : KpEntry) : Option String :=
  match e.username with
  | some u => if !u.isEmpty && !hasRef u then some u else none
  | none => none

def extract_otp_from_entry (e : KpEntry) : ExtractOutcome :=
  if has_references e then .err "contains_field_references"
  else
    match otpUriOf e with
    | none => .noOtp
    | some uri0 =>
      let uriE : Except String String :=
        if strStarts uri0 "otpauth://" then Except.ok uri0
        else simpleKeyUri e.title uri0
      match uriE with
      | Except.error c => .err c
      | Except.ok uri =>
        match parse_otpauth_uri uri with
        | none => .err "invalid_uri_format"
        | some d => .ok { d with url := entryUrlOpt e, username := entryUserOpt e }

/-! ## The import/dedup pass of `validate_input` (config_flow.py lines 390-497) -/

/-- One element of `import_stats["skipped"]`. -/
structure SkipItem where
  name : String
  reason : String
deriving Repr, DecidableEq

/-- One value of the `otp_secrets` dict stored per entry UUID. -/
structure SecretRecord where
  secret : String
  name : String
  issuer : Option String
  account : String
  period : Int
  digits : Int
  algorithm : String
  url : Option String
  username : Option String
deriving Repr, DecidableEq

/-- `otp_secrets[entry_uuid] = {...}` built from an entry and its OTP data. -/
def mkRec (e : KpEntry) (d : OtpData) : SecretRecord :=
  { secret := d.secret, name := e.title, issuer := d.issuer, account := d.account,
    period := d.period, digits := d.digits, algorithm := d.algorithm,
    url := d.url, username := d.username }

/-- `reason_map` of `validate_input`. -/
def reasonMap (c : String) : String :=
  if c = "contains_field_references" then "Contains field references"
  else if c = "simple_key_not_supported" then "Simple key format not supported"
  else if c = "no_secret_found" then "No secret found"
  else if c = "invalid_uri_format" then "Invalid URI format"
  else "Unknown error"

/-- Python dict assignment `m[k] = v` on an insertion-ordered dict. -/
def dictInsert (k : String) (v : SecretRecord) :
    List (String × SecretRecord) → List (String × SecretRecord)
  | [] => [(k, v)]
  | (k1, v1) :: rest =>
    if k1 = k then (k, v) :: rest else (k1, v1) :: dictInsert k v rest

/-- Mutable state of the `for entry in kp.entries` loop: `seen_secret_hashes`,
`otp_secrets`, `import_stats["imported"]`, `import_stats["skipped"]`. -/
structure LoopState where
  seen : List String
  secrets : List (String × SecretRecord)
  imported : List String
  skipped : List SkipItem
deriving Repr, DecidableEq

/-- The entry loop of `validate_input`, parameterised by the secret content
hash `h` (`hashlib.sha256(secret.encode()).hexdigest()` in the source). -/
def importLoop (h : String → String) (st : LoopState) : List KpEntry → LoopState
  | [] => st
  | e :: rest =>
    match extract_otp_from_entry e with
    | .noOtp => importLoop h st rest
    | .err c =>
      importLoop h { st with skipped := st.skipped ++ [⟨e.title, reasonMap c⟩] } rest
    | .ok d =>
      if h d.secret ∈ st.seen then
        importLoop h { st with skipped := st.skipped ++ [⟨e.title, "Duplicate"⟩] } rest
      else
        importLoop h
          { seen := h d.secret :: st.seen
            secrets := dictInsert e.uuid (mkRec e d) st.secrets
            imported := st.imported ++ [e.title]
            skipped := st.skipped } rest

structure ImportStats where
  imported : List String
  skipped : List SkipItem
  total_entries : Nat
deriving Repr, DecidableEq

structure ImportResult where
  otp_secrets : List (String × SecretRecord)
  stats : ImportStats
deriving Repr, DecidableEq

/-- The extraction/dedup pass of `validate_input` over the opened database's
entries. -/
def validate_input (h : String → String) (entries : List KpEntry) : ImportResult :=
  let fin := importLoop h ⟨[], [], [], []⟩ entries
  ⟨fin.secrets, ⟨fin.imported, fin.skipped, entries.length⟩⟩

/-! ## Stored data (config_flow.py lines 491-497 and 700-710) -/

inductive StoredValue where
  | str (s : String)
  | secretsMap (m : List (String × SecretRecord))
  | stats (st : ImportStats)
deriving Repr, DecidableEq

/-- The dict returned by `validate_input`.  `password`, `dbBytes` and
`kfBytes` are the credentials and raw file contents `validate_input` worked
with; they are parameters here precisely so that theorems can state that the
result does not depend on them. -/
def validate_input_return (h : String → String) (_password : String)
    (_dbBytes : List Nat) (_kfBytes : Option (List Nat))
    (entries : List KpEntry) : List (String × StoredValue) :=
  [("title", StoredValue.str "KeePassXC OTP"),
   ("otp_secrets", StoredValue.secretsMap (validate_input h entries).otp_secrets),
   ("import_stats", StoredValue.stats (validate_input h entries).stats)]

/-- The `data` dict persisted in the config entry by `async_step_user` /
`async_step_reconfigure`. -/
def config_entry_data (personEntityId personName personId dbFile kfFile : String)
    (h : String → String) (_password : String) (_dbBytes : List Nat)
    (_kfBytes : Option (List Nat)) (entries : List KpEntry) :
    List (String × StoredValue) :=
  [("person_entity_id", StoredValue.str personEntityId),
   ("person_name", StoredValue.str personName),
   ("person_id", StoredValue.str personId),
   ("database_file", StoredValue.str dbFile),
   ("keyfile_file", StoredValue.str kfFile),
   ("otp_secrets", StoredValue.secretsMap (validate_input h entries).otp_secrets)]

/-! ## Code generation (sensor.py lines 219-239) and `pyotp` model -/

/-- Decimal digits of `n`, least significant first. -/
def decDigits (n : Nat) : List Char :=
  if h : n = 0 then []
  else Char.ofNat (48 + n % 10) :: decDigits (n / 10)
termination_by n
decreasing_by exact Nat.div_lt_self (Nat.pos_of_ne_zero h) (by decide)

/-- Python `str(n)` for a natural number. -/
def decStr (n : Nat) : String :=
  if n = 0 then "0" else String.mk (decDigits n).reverse

/-- Python `str.zfill`. -/
def zfill (w : Nat) (s : String) : String :=
  if w ≤ s.length then s else String.mk (List.replicate (w - s.length) '0' ++ s.data)

/-- Modelled from the spec: `pyotp.TOTP(...).now()` is not part of this
repository; per spec section 4.2 the code is the standard OTP value
truncated to the digit count and left-zero-padded.  `trunc` abstracts the
31-bit dynamically-truncated HMAC value. -/
def pyotp_totp_now (trunc digits : Nat) : String :=
  zfill digits (decStr (trunc % 10 ^ digits))

/-- `native_value`: `str(totp.now()).zfill(digits)`. -/
def native_value (trunc digits : Nat) : String :=
  zfill digits (pyotp_totp_now trunc digits)

/-! ## Sensor attributes (sensor.py lines 241-263) -/

inductive AttrValue where
  | str (s : String)
  | int (i : Int)
deriving Repr, DecidableEq

/-- The per-sensor OTP data dict of sensor.py's coordinator. -/
structure SensorOtpData where
  entry_name : String
  secret : String
  issuer : Option String
  account : String
  period : Int
  digits : Int
  algorithm : String
  otype : String
deriving Repr, DecidableEq

/-- `time_remaining = period - (int(time.time()) % period)`.  For a positive
period, Lean's `Int.emod` agrees with Python's `%`. -/
def time_remaining (period t : Int) : Int := period - t % period

/-- `extra_state_attributes`. -/
def extra_state_attributes (d : SensorOtpData) (t : Int) : List (String × AttrValue) :=
  [("entry_name", AttrValue.str d.entry_name),
   ("time_remaining", AttrValue.int (time_remaining d.period t)),
   ("period", AttrValue.int d.period)]
  ++ (match d.issuer with
      | some i => if i.isEmpty then [] else [("issuer", AttrValue.str i)]
      | none => [])
  ++ (if d.account.isEmpty then [] else [("account", AttrValue.str d.account)])

def lookupAttr (k : String) (l : List (String × AttrValue)) : Option AttrValue :=
  (l.find? (fun p => p.1 = k)).map (·.2)

/-! ## Poll-tick structure (sensor.py lines 42-94, const.py lines 14-15)

`KeePassXCOTPCoordinator._async_update_data` delegates every refresh to
`_load_otp_entries`, which re-opens the KeePass database with `PyKeePass`
and re-walks all entries. -/

inductive CoordinatorAction where
  | openDatabase
  | iterateEntries
  | extractOtp
deriving Repr, DecidableEq

/-- The operations `_load_otp_entries` performs, in order. -/
def load_otp_entries_actions : List CoordinatorAction :=
  [CoordinatorAction.openDatabase, CoordinatorAction.iterateEntries,
   CoordinatorAction.extractOtp]

/-- `_async_update_data` runs `_load_otp_entries` on every coordinator
refresh. -/
def poll_tick_actions : List CoordinatorAction := load_otp_entries_actions

/-- `UPDATE_INTERVAL = timedelta(seconds=30)` in const.py. -/
def UPDATE_INTERVAL_seconds : Nat := 30

/-- The names sensor.py imports from `.const` (sensor.py lines 26-37). -/
def sensor_const_imports : List String :=
  ["ATTR_ACCOUNT", "ATTR_ENTRY_NAME", "ATTR_ISSUER", "ATTR_PERIOD",
   "ATTR_TIME_REMAINING", "CONF_DATABASE_PATH", "CONF_KEYFILE",
   "CONF_PASSWORD", "DOMAIN", "UPDATE_INTERVAL"]

/-- The names const.py actually defines. -/
def const_defined_names : List String :=
  ["DOMAIN", "CONF_DATABASE_FILE", "CONF_PASSWORD", "CONF_KEYFILE_FILE",
   "CONF_OTP_SECRETS", "CONF_IMPORT_STATS", "UPDATE_INTERVAL", "DEFAULT_NAME",
   "ATTR_ENTRY_NAME", "ATTR_ISSUER", "ATTR_ACCOUNT", "ATTR_TIME_REMAINING",
   "ATTR_PERIOD", "sanitize_entity_name", "sanitize_path_component"]

/-! ## Derived views of the import loop (used to state its invariants) -/

/-- The secret the import pass extracts from an entry, when extraction
succeeds. -/
def extractedSecret (e : KpEntry) : Option String :=
  match extract_otp_from_entry e with
  | .ok d => some d.secret
  | _ => none

/-- The (entry, otp-data) pairs the loop keeps, i.e. first occurrences of
each secret hash. -/
def keptPairs (h : String → String) (seen : List String) :
    List KpEntry → List (KpEntry × OtpData)
  | [] => []
  | e :: rest =>
    match extract_otp_from_entry e with
    | .ok d =>
      if h d.secret ∈ seen then keptPairs h seen rest
      else (e, d) :: keptPairs h (h d.secret :: seen) rest
    | _ => keptPairs h seen rest

/-- The skip items the loop records, in order. -/
def skipsOf (h : String → String) (seen : List String) :
    List KpEntry → List SkipItem
  | [] => []
  | e :: rest =>
    match extract_otp_from_entry e with
    | .err c => ⟨e.title, reasonMap c⟩ :: skipsOf h seen rest
    | .ok d =>
      if h d.secret ∈ seen then ⟨e.title, "Duplicate"⟩ :: skipsOf h seen rest
      else skipsOf h (h d.secret :: seen) rest
    | .noOtp => skipsOf h seen rest

/-- C5's hypothesis, following the claim's words: some relevant field of
the entry contains the literal substring `{REF:`. -/
def anyFieldContainsRef (e : KpEntry) : Bool :=
  containsSubstr e.title "\x7bREF:"
  || (match e.username with | some s => containsSubstr s "\x7bREF:" | none => false)
  || (match e.passwd with | some s => containsSubstr s "\x7bREF:" | none => false)
  || (match e.url with | some s => containsSubstr s "\x7bREF:" | none => false)
  || (match e.notes with | some s => containsSubstr s "\x7bREF:" | none => false)
  || e.custom_properties.any (fun p => containsSubstr p.2 "\x7bREF:")

/-- C10's claim-side reading of "a plain base32 string (characters A-Z and
2-7)". -/
def claimPlainBase32 (s : String) : Bool :=
  !s.data.isEmpty && s.data.all (fun c => ('A' ≤ c && c ≤ 'Z') || ('2' ≤ c && c ≤ '7'))

/-- Characters that pass untouched through every stage of URI parsing when
they occur in the query's secret value: no tab/CR/LF removal, no fragment
split, no `&` pair split, no percent/plus decoding. -/
def cleanSChar (c : Char) : Prop :=
  c ≠ '\t' ∧ c ≠ '\r' ∧ c ≠ '\n' ∧ c ≠ '#' ∧ c ≠ '&' ∧ c ≠ '%' ∧ c ≠ '+'

/-- Characters that pass untouched through URI parsing when they occur in
the path label: additionally no query split, no label split, no slash
stripping. -/
def cleanTChar (c : Char) : Prop :=
  c ≠ '\t' ∧ c ≠ '\r' ∧ c ≠ '\n' ∧ c ≠ '#' ∧ c ≠ '?' ∧ c ≠ ':' ∧ c ≠ '/'

/-! # Theorems -/

/-- C3: after an import, the config-entry storage holds only the
deduplicated Secret Records plus metadata (person info, file *names*): the
stored mapping has no `password` field, and neither the stored mapping nor
the dict `validate_input` returns depends on the password or on the raw
database/keyfile bytes. -/
theorem C3_stored_only_records_no_password :
    ∀ (pid pn pidn df kf : String) (h : String → String) (pw : String)
      (db : List Nat) (kfb : Option (List Nat)) (es : List KpEntry),
      ((config_entry_data pid pn pidn df kf h pw db kfb es).map Prod.fst
        = ["person_entity_id", "person_name", "person_id", "database_file",
           "keyfile_file", "otp_secrets"])
      ∧ "password" ∉ (config_entry_data pid pn pidn df kf h pw db kfb es).map Prod.fst
      ∧ ((validate_input_return h pw db kfb es).map Prod.fst
          = ["title", "otp_secrets", "import_stats"])
      ∧ "password" ∉ (validate_input_return h pw db kfb es).map Prod.fst
      ∧ (∀ pw2 db2 kfb2, config_entry_data pid pn pidn df kf h pw2 db2 kfb2 es
          = config_entry_data pid pn pidn df kf h pw db kfb es)
      ∧ (∀ pw2 db2 kfb2, validate_input_return h pw2 db2 kfb2 es
          = validate_input_return h pw db kfb es) := by
  intro pid pn pidn df kf h pw db kfb es
  refine ⟨rfl, ?_, rfl, ?_, fun _ _ _ => rfl, fun _ _ _ => rfl⟩
  · simp [config_entry_data]
  · simp [validate_input_return]

/-- C4: contrary to the claim, sensor.py's coordinator re-runs the database
open/extract pass on every poll tick: `_async_update_data` delegates each
30-second refresh to `_load_otp_entries`, which opens the database.  The
sensor module is also stale: it imports `CONF_DATABASE_PATH` and
`CONF_KEYFILE` from const.py, which defines neither, so the module cannot
even load against the rest of the repository (whose config flow stores no
password for a poll-time re-open). -/
theorem C4_poll_tick_reopens_database :
    CoordinatorAction.openDatabase ∈ poll_tick_actions
    ∧ UPDATE_INTERVAL_seconds = 30
    ∧ "CONF_DATABASE_PATH" ∈ sensor_const_imports
    ∧ "CONF_DATABASE_PATH" ∉ const_defined_names
    ∧ "CONF_KEYFILE" ∈ sensor_const_imports
    ∧ "CONF_KEYFILE" ∉ const_defined_names := by
  refine ⟨?_, rfl, ?_, ?_, ?_, ?_⟩ <;> decide

/-- C9: the `time_remaining` attribute exposed by
`extra_state_attributes` equals `period - (t mod period)`; with period 30
and `t mod 30 = 5` it is 25. -/
theorem C9_seconds_remaining (d : SensorOtpData) (t : Int) (_hp : 0 < d.period) :
    lookupAttr "time_remaining" (extra_state_attributes d t)
      = some (AttrValue.int (d.period - t % d.period))
    ∧ (d.period = 30 → t % 30 = 5 →
        lookupAttr "time_remaining" (extra_state_attributes d t)
          = some (AttrValue.int 25)) := by
  constructor
  · simp [lookupAttr, extra_state_attributes, time_remaining, List.find?]
  · intro h30 h5
    simp [lookupAttr, extra_state_attributes, time_remaining, List.find?, h30, h5]

/-- Witness for C9 at period 30, t = 65 (65 mod 30 = 5, remaining 25). -/
theorem C9_seconds_remaining_witness :
    lookupAttr "time_remaining"
      (extra_state_attributes
        ⟨"e", "S", none, "a", 30, 6, "SHA1", "totp"⟩ 65)
      = some (AttrValue.int 25) :=
  (C9_seconds_remaining ⟨"e", "S", none, "a", 30, 6, "SHA1", "totp"⟩ 65
    (by decide)).2 rfl (by decide)

/-! ## Lemmas about decimal strings and `zfill` -/

theorem strmk_length (l : List Char) : (String.mk l).length = l.length := rfl

theorem decDigits_zero : decDigits 0 = [] := by
  rw [decDigits]
  simp

theorem decDigits_pos (n : Nat) (h : n ≠ 0) :
    decDigits n = Char.ofNat (48 + n % 10) :: decDigits (n / 10) := by
  rw [decDigits]
  simp [h]

theorem decDigits_length_le (D : Nat) :
    ∀ n : Nat, n < 10 ^ D → (decDigits n).length ≤ D := by
  induction D with
  | zero =>
    intro n hn
    interval_cases n
    simp [decDigits_zero]
  | succ D ih =>
    intro n hn
    by_cases h0 : n = 0
    · simp [h0, decDigits_zero]
    · rw [decDigits_pos n h0]
      have hd : n / 10 < 10 ^ D := by
        rw [Nat.div_lt_iff_lt_mul (by norm_num)]
        calc n < 10 ^ (D + 1) := hn
        _ = 10 ^ D * 10 := by ring
      simpa using Nat.succ_le_succ (ih (n / 10) hd)

theorem decStr_length_le (n D : Nat) (hD : 1 ≤ D) (hn : n < 10 ^ D) :
    (decStr n).length ≤ D := by
  unfold decStr
  by_cases h0 : n = 0
  · simp [h0]
    exact hD
  · simp only [h0, if_false]
    rw [strmk_length, List.length_reverse]
    exact decDigits_length_le D n hn

theorem zfill_length (w : Nat) (s : String) : (zfill w s).length = max w s.length := by
  unfold zfill
  by_cases h : w ≤ s.length
  · simp [h, Nat.max_eq_right h]
  · have hlt : s.length ≤ w := Nat.le_of_lt (Nat.lt_of_not_le h)
    simp only [h, if_false]
    rw [strmk_length, List.length_append, List.length_replicate, Nat.max_eq_left hlt]
    have : s.data.length = s.length := rfl
    omega

/-! ## Claim C1 -/

/-- C1: the parser returns exactly the `digits=D` it was given, and every
generated code string has length exactly the configured digit count
(truncation to `D` digits plus left zero-padding). -/
theorem C1_digits_count :
    (∀ (uri : String) (d : OtpData) (v : String) (D : Int),
      parse_otpauth_uri uri = some d →
      getParam (parseQsModel (urlparseModel uri).query) "digits" = some v →
      pyInt v = some D → d.digits = D)
    ∧ (∀ (trunc D : Nat), 1 ≤ D → (native_value trunc D).length = D) := by
  constructor
  · intro uri d v D hparse hv hD
    unfold parse_otpauth_uri at hparse
    split at hparse
    · exact absurd hparse (by simp)
    · split at hparse
      · exact absurd hparse (by simp)
      · unfold parseWithParams at hparse
        rcases hsec : getParam (parseQsModel (urlparseModel uri).query) "secret" with _ | sec
        · rw [hsec] at hparse
          exact absurd hparse (by simp)
        · rw [hsec] at hparse
          rcases hper : pyInt (getParamD (parseQsModel (urlparseModel uri).query) "period" "30") with _ | per
          · rw [hper] at hparse
            exact absurd hparse (by simp)
          · rcases hdig : pyInt (getParamD (parseQsModel (urlparseModel uri).query) "digits" "6") with _ | dig
            · rw [hper, hdig] at hparse
              exact absurd hparse (by simp)
            · rw [hper, hdig] at hparse
              simp only [Option.some.injEq] at hparse
              have hdd : d.digits = dig := by rw [← hparse]
              have : getParamD (parseQsModel (urlparseModel uri).query) "digits" "6" = v := by
                unfold getParamD
                rw [hv]
                rfl
              rw [this, hD] at hdig
              simp only [Option.some.injEq] at hdig
              rw [hdd, hdig]
  · intro trunc D hD
    unfold native_value pyotp_totp_now
    rw [zfill_length, zfill_length]
    have hmod : trunc % 10 ^ D < 10 ^ D :=
      Nat.mod_lt _ (Nat.pos_pow_of_pos D (by norm_num))
    have hlen : (decStr (trunc % 10 ^ D)).length ≤ D := decStr_length_le _ D hD hmod
    omega

/-- Witness for C1: `digits=8` in the URI yields `digits = 8`, and a code
generated with 6 digits has length 6. -/
theorem C1_digits_count_witness :
    (∃ d, parse_otpauth_uri "otpauth://totp/a?secret=ABC&digits=8" = some d
      ∧ d.digits = 8)
    ∧ (native_value 1234567890 6).length = 6 := by
  constructor
  · refine ⟨_, rfl, ?_⟩
    exact C1_digits_count.1 "otpauth://totp/a?secret=ABC&digits=8" _ "8" 8 rfl (by decide) (by decide)
  · exact C1_digits_count.2 1234567890 6 (by decide)

/-! ## Claim C6 -/

/-- C6 counterexample: `otpauth://totp/a?secret=ABC&digits=xyz` has the
right scheme, a supported type token and a non-empty secret, yet the parser
rejects it (the `int("xyz")` call raises and the `except` returns `None`).
So rejection does not happen *exactly* on the three listed conditions. -/
theorem C6_counterexample :
    parse_otpauth_uri "otpauth://totp/a?secret=ABC&digits=xyz" = none
    ∧ (urlparseModel "otpauth://totp/a?secret=ABC&digits=xyz").scheme = "otpauth"
    ∧ (urlparseModel "otpauth://totp/a?secret=ABC&digits=xyz").netloc = "totp"
    ∧ getParam (parseQsModel
        (urlparseModel "otpauth://totp/a?secret=ABC&digits=xyz").query) "secret"
        = some "ABC" := by
  refine ⟨by decide, by decide, by decide, by decide⟩

/-- C6 amended: the parser returns a rejection exactly when the scheme is
not `otpauth`, or the type token is neither `totp` nor `hotp`, or the
`secret` query parameter is missing or empty (`parse_qs` drops empty
values), or the `period`/`digits` parameter is present but not parseable as
a Python integer; otherwise it returns the parsed fields. -/
theorem C6_amended_rejection_iff (uri : String) :
    parse_otpauth_uri uri = none ↔
      ((urlparseModel uri).scheme ≠ "otpauth"
       ∨ ((urlparseModel uri).netloc ≠ "totp" ∧ (urlparseModel uri).netloc ≠ "hotp")
       ∨ getParam (parseQsModel (urlparseModel uri).query) "secret" = none
       ∨ pyInt (getParamD (parseQsModel (urlparseModel uri).query) "period" "30") = none
       ∨ pyInt (getParamD (parseQsModel (urlparseModel uri).query) "digits" "6") = none) := by
  unfold parse_otpauth_uri
  by_cases h1 : (urlparseModel uri).scheme = "otpauth"
  · simp only [h1, ne_eq, not_true_eq_false, if_false, false_or]
    by_cases h2 : (urlparseModel uri).netloc ≠ "totp" ∧ (urlparseModel uri).netloc ≠ "hotp"
    · simp [h2]
    · simp only [h2, if_false, false_or]
      unfold parseWithParams
      rcases hsec : getParam (parseQsModel (urlparseModel uri).query) "secret" with _ | sec
      · simp
      · simp only [Option.some.injEq, reduceCtorEq, false_or]
        rcases hper : pyInt (getParamD (parseQsModel (urlparseModel uri).query) "period" "30") with _ | per
        · simp
        · rcases hdig : pyInt (getParamD (parseQsModel (urlparseModel uri).query) "digits" "6") with _ | dig
          · simp
          · simp
  · simp [h1]

/-! ## Claim C7 -/

/-- Inversion of a successful parse: the fields of the returned data in
terms of the URI's components. -/
theorem parse_some_inv (uri : String) (d : OtpData)
    (h : parse_otpauth_uri uri = some d) :
    ∃ sec per dig,
      getParam (parseQsModel (urlparseModel uri).query) "secret" = some sec
      ∧ pyInt (getParamD (parseQsModel (urlparseModel uri).query) "period" "30") = some per
      ∧ pyInt (getParamD (parseQsModel (urlparseModel uri).query) "digits" "6") = some dig
      ∧ d = { secret := sec
              issuer := match getParam (parseQsModel (urlparseModel uri).query) "issuer" with
                | some i => some i
                | none => (splitLabel (labelOf (urlparseModel uri).path)).1
              account := (splitLabel (labelOf (urlparseModel uri).path)).2
              period := per
              digits := dig
              algorithm := getParamD (parseQsModel (urlparseModel uri).query) "algorithm" "SHA1"
              otype := (urlparseModel uri).netloc } := by
  unfold parse_otpauth_uri at h
  split at h
  · exact absurd h (by simp)
  · split at h
    · exact absurd h (by simp)
    · unfold parseWithParams at h
      rcases hsec : getParam (parseQsModel (urlparseModel uri).query) "secret" with _ | sec
      · rw [hsec] at h
        exact absurd h (by simp)
      · rw [hsec] at h
        rcases hper : pyInt (getParamD (parseQsModel (urlparseModel uri).query) "period" "30") with _ | per
        · rw [hper] at h
          exact absurd h (by simp)
        · rcases hdig : pyInt (getParamD (parseQsModel (urlparseModel uri).query) "digits" "6") with _ | dig
          · rw [hper, hdig] at h
            exact absurd h (by simp)
          · rw [hper, hdig] at h
            simp only [Option.some.injEq] at h
            exact ⟨sec, per, dig, rfl, rfl, rfl, h.symm⟩

/-- C7: the example URI parses to the expected fields; absent `period`,
`digits`, `algorithm` parameters default to 30, 6, `SHA1`; an explicit
`issuer` query parameter wins over the label prefix. -/
theorem C7_example_and_defaults :
    parse_otpauth_uri
        "otpauth://totp/Example:alice?secret=JBSWY3DPEHPK3PXP&issuer=Example&period=30&digits=6"
      = some { secret := "JBSWY3DPEHPK3PXP", issuer := some "Example",
               account := "alice", period := 30, digits := 6,
               algorithm := "SHA1", otype := "totp" }
    ∧ (∀ (uri : String) (d : OtpData), parse_otpauth_uri uri = some d →
        getParam (parseQsModel (urlparseModel uri).query) "period" = none →
        d.period = 30)
    ∧ (∀ (uri : String) (d : OtpData), parse_otpauth_uri uri = some d →
        getParam (parseQsModel (urlparseModel uri).query) "digits" = none →
        d.digits = 6)
    ∧ (∀ (uri : String) (d : OtpData), parse_otpauth_uri uri = some d →
        getParam (parseQsModel (urlparseModel uri).query) "algorithm" = none →
        d.algorithm = "SHA1")
    ∧ (∀ (uri : String) (d : OtpData) (v : String), parse_otpauth_uri uri = some d →
        getParam (parseQsModel (urlparseModel uri).query) "issuer" = some v →
        d.issuer = some v) := by
  refine ⟨by decide, ?_, ?_, ?_, ?_⟩
  · intro uri d hparse habs
    obtain ⟨sec, per, dig, hsec, hper, hdig, hd⟩ := parse_some_inv uri d hparse
    have hgd : getParamD (parseQsModel (urlparseModel uri).query) "period" "30" = "30" := by
      unfold getParamD
      rw [habs]
      rfl
    rw [hgd] at hper
    have h30 : pyInt "30" = some 30 := by decide
    rw [h30] at hper
    simp only [Option.some.injEq] at hper
    rw [hd, ← hper]
  · intro uri d hparse habs
    obtain ⟨sec, per, dig, hsec, hper, hdig, hd⟩ := parse_some_inv uri d hparse
    have hgd : getParamD (parseQsModel (urlparseModel uri).query) "digits" "6" = "6" := by
      unfold getParamD
      rw [habs]
      rfl
    rw [hgd] at hdig
    have h6 : pyInt "6" = some 6 := by decide
    rw [h6] at hdig
    simp only [Option.some.injEq] at hdig
    rw [hd, ← hdig]
  · intro uri d hparse habs
    obtain ⟨sec, per, dig, hsec, hper, hdig, hd⟩ := parse_some_inv uri d hparse
    rw [hd]
    simp [getParamD, habs]
  · intro uri d v hparse hiss
    obtain ⟨sec, per, dig, hsec, hper, hdig, hd⟩ := parse_some_inv uri d hparse
    rw [hd]
    simp [hiss]

/-- Witness for C7's conditional parts at a URI with no optional
parameters (defaults apply) and one with an explicit issuer parameter. -/
theorem C7_example_and_defaults_witness :
    (∃ d, parse_otpauth_uri "otpauth://totp/bob?secret=ABCDEFG234567XYZ" = some d
      ∧ d.period = 30 ∧ d.digits = 6 ∧ d.algorithm = "SHA1")
    ∧ (∃ d, parse_otpauth_uri "otpauth://totp/Lab:carol?secret=ABC&issuer=Ext" = some d
      ∧ d.issuer = some "Ext") := by
  constructor
  · have h : parse_otpauth_uri "otpauth://totp/bob?secret=ABCDEFG234567XYZ"
        = some { secret := "ABCDEFG234567XYZ", issuer := none, account := "bob",
                 period := 30, digits := 6, algorithm := "SHA1", otype := "totp" } := by
      decide
    refine ⟨_, h, ?_, ?_, ?_⟩
    · exact C7_example_and_defaults.2.1 _ _ h (by decide)
    · exact C7_example_and_defaults.2.2.1 _ _ h (by decide)
    · exact C7_example_and_defaults.2.2.2.1 _ _ h (by decide)
  · have h : parse_otpauth_uri "otpauth://totp/Lab:carol?secret=ABC&issuer=Ext"
        = some { secret := "ABC", issuer := some "Ext", account := "carol",
                 period := 30, digits := 6, algorithm := "SHA1", otype := "totp" } := by
      decide
    exact ⟨_, h, C7_example_and_defaults.2.2.2.2 _ _ "Ext" h (by decide)⟩

/-! ## Structural lemmas about the import loop -/

theorem importLoop_append (h : String → String) (xs ys : List KpEntry) :
    ∀ st, importLoop h st (xs ++ ys) = importLoop h (importLoop h st xs) ys := by
  induction xs with
  | nil => intro st; rfl
  | cons e rest ih =>
    intro st
    simp only [List.cons_append, importLoop]
    cases hx : extract_otp_from_entry e with
    | noOtp => exact ih _
    | err c => exact ih _
    | ok d =>
      by_cases hs : h d.secret ∈ st.seen
      · simp only [hs, if_true]
        exact ih _
      · simp only [hs, if_false]
        exact ih _

theorem importLoop_skipped_shift (h : String → String) :
    ∀ (es : List KpEntry) (sn : List String) (sc : List (String × SecretRecord))
      (im : List String) (k : List SkipItem),
    importLoop h ⟨sn, sc, im, k⟩ es
      = ⟨(importLoop h ⟨sn, sc, im, []⟩ es).seen,
         (importLoop h ⟨sn, sc, im, []⟩ es).secrets,
         (importLoop h ⟨sn, sc, im, []⟩ es).imported,
         k ++ (importLoop h ⟨sn, sc, im, []⟩ es).skipped⟩ := by
  intro es
  induction es with
  | nil => intro sn sc im k; simp [importLoop]
  | cons e rest ih =>
    intro sn sc im k
    simp only [importLoop]
    cases hx : extract_otp_from_entry e with
    | noOtp => exact ih sn sc im k
    | err c =>
      dsimp only
      rw [ih sn sc im (k ++ [SkipItem.mk e.title (reasonMap c)]),
          ih sn sc im ([] ++ [SkipItem.mk e.title (reasonMap c)])]
      simp
    | ok d =>
      dsimp only
      by_cases hs : h d.secret ∈ sn
      · simp only [hs, if_true]
        rw [ih sn sc im (k ++ [SkipItem.mk e.title "Duplicate"]),
            ih sn sc im ([] ++ [SkipItem.mk e.title "Duplicate"])]
        simp
      · simp only [hs, if_false]
        exact ih _ _ _ k

theorem importLoop_skipped_eq (h : String → String) :
    ∀ (es : List KpEntry) (sn : List String) (sc : List (String × SecretRecord))
      (im : List String) (k : List SkipItem),
    (importLoop h ⟨sn, sc, im, k⟩ es).skipped = k ++ skipsOf h sn es := by
  intro es
  induction es with
  | nil => intro sn sc im k; simp [importLoop, skipsOf]
  | cons e rest ih =>
    intro sn sc im k
    simp only [importLoop, skipsOf]
    cases hx : extract_otp_from_entry e with
    | noOtp => exact ih sn sc im k
    | err c =>
      dsimp only
      rw [ih sn sc im (k ++ [SkipItem.mk e.title (reasonMap c)])]
      simp
    | ok d =>
      dsimp only
      by_cases hs : h d.secret ∈ sn
      · simp only [hs, if_true]
        rw [ih sn sc im (k ++ [SkipItem.mk e.title "Duplicate"])]
        simp
      · simp only [hs, if_false]
        exact ih _ _ _ k

theorem importLoop_imported_eq (h : String → String) :
    ∀ (es : List KpEntry) (sn : List String) (sc : List (String × SecretRecord))
      (im : List String) (k : List SkipItem),
    (importLoop h ⟨sn, sc, im, k⟩ es).imported
      = im ++ (keptPairs h sn es).map (fun p => p.1.title) := by
  intro es
  induction es with
  | nil => intro sn sc im k; simp [importLoop, keptPairs]
  | cons e rest ih =>
    intro sn sc im k
    simp only [importLoop, keptPairs]
    cases hx : extract_otp_from_entry e with
    | noOtp => exact ih sn sc im k
    | err c => exact ih sn sc im _
    | ok d =>
      dsimp only
      by_cases hs : h d.secret ∈ sn
      · simp only [hs, if_true]
        exact ih sn sc im _
      · simp only [hs, if_false]
        rw [ih _ _ (im ++ [e.title]) k]
        simp

theorem dictInsert_fresh (k : String) (v : SecretRecord) :
    ∀ l : List (String × SecretRecord), k ∉ l.map Prod.fst →
    dictInsert k v l = l ++ [(k, v)] := by
  intro l
  induction l with
  | nil => intro _; rfl
  | cons p rest ih =>
    intro hk
    simp only [List.map_cons, List.mem_cons] at hk
    push_neg at hk
    have hne : p.1 ≠ k := fun hh => hk.1 hh.symm
    simp only [dictInsert, hne, if_false]
    rw [ih hk.2]
    rfl

theorem importLoop_secrets_eq (h : String → String) :
    ∀ (es : List KpEntry) (sn : List String) (sc : List (String × SecretRecord))
      (im : List String) (k : List SkipItem),
    (∀ e ∈ es, e.uuid ∉ sc.map Prod.fst) → (es.map KpEntry.uuid).Nodup →
    (importLoop h ⟨sn, sc, im, k⟩ es).secrets
      = sc ++ (keptPairs h sn es).map (fun p => (p.1.uuid, mkRec p.1 p.2)) := by
  intro es
  induction es with
  | nil => intro sn sc im k _ _; simp [importLoop, keptPairs]
  | cons e rest ih =>
    intro sn sc im k hfresh hnd
    simp only [List.map_cons, List.nodup_cons] at hnd
    simp only [importLoop, keptPairs]
    cases hx : extract_otp_from_entry e with
    | noOtp => exact ih sn sc im k (fun e2 he2 => hfresh e2 (List.mem_cons_of_mem e he2)) hnd.2
    | err c => exact ih sn sc im _ (fun e2 he2 => hfresh e2 (List.mem_cons_of_mem e he2)) hnd.2
    | ok d =>
      dsimp only
      by_cases hs : h d.secret ∈ sn
      · simp only [hs, if_true]
        exact ih sn sc im _ (fun e2 he2 => hfresh e2 (List.mem_cons_of_mem e he2)) hnd.2
      · simp only [hs, if_false]
        rw [dictInsert_fresh e.uuid (mkRec e d) sc (hfresh e (List.mem_cons_self e rest))]
        rw [ih _ _ (im ++ [e.title]) k ?fr hnd.2]
        · simp
        case fr =>
          intro e2 he2
          simp only [List.map_append, List.mem_append, List.map_cons]
          rintro (hin | hin)
          · exact hfresh e2 (List.mem_cons_of_mem e he2) hin
          · simp only [List.map_nil, List.mem_singleton] at hin
            have : e.uuid ∈ rest.map KpEntry.uuid := by
              rw [← hin]
              exact List.mem_map_of_mem KpEntry.uuid he2
            exact hnd.1 this

theorem keptPairs_sound (h : String → String) :
    ∀ (es : List KpEntry) (seen : List String) (p : KpEntry × OtpData),
    p ∈ keptPairs h seen es → extract_otp_from_entry p.1 = ExtractOutcome.ok p.2 := by
  intro es
  induction es with
  | nil => intro seen p hp; simp [keptPairs] at hp
  | cons e rest ih =>
    intro seen p hp
    simp only [keptPairs] at hp
    cases hx : extract_otp_from_entry e with
    | noOtp =>
      rw [hx] at hp
      exact ih seen p hp
    | err c =>
      rw [hx] at hp
      exact ih seen p hp
    | ok d =>
      rw [hx] at hp
      dsimp only at hp
      by_cases hs : h d.secret ∈ seen
      · rw [if_pos hs] at hp
        exact ih seen p hp
      · rw [if_neg hs] at hp
        rcases List.mem_cons.mp hp with hp1 | hp2
        · rw [hp1]
          exact hx
        · exact ih _ p hp2

/-! ## Per-entry error codes and skip reasons -/

theorem simpleKeyUri_err_codes (t u c : String)
    (h : simpleKeyUri t u = Except.error c) :
    c = "no_secret_found" ∨ c = "simple_key_not_supported" := by
  unfold simpleKeyUri at h
  rcases hk : searchKey u.data with _ | g
  · rw [hk] at h
    dsimp only at h
    by_cases hb : isPlainB32 (pyStrip u).data
    · rw [if_pos hb] at h
      split at h
      · simp only [Except.error.injEq] at h
        exact Or.inl h.symm
      · exact absurd h (by simp)
    · rw [if_neg hb] at h
      simp only [Except.error.injEq] at h
      exact Or.inr h.symm
  · rw [hk] at h
    dsimp only at h
    split at h
    · simp only [Except.error.injEq] at h
      exact Or.inl h.symm
    · exact absurd h (by simp)

theorem extract_err_codes (e : KpEntry) (c : String)
    (h : extract_otp_from_entry e = ExtractOutcome.err c) :
    c = "contains_field_references" ∨ c = "simple_key_not_supported"
    ∨ c = "no_secret_found" ∨ c = "invalid_uri_format" := by
  unfold extract_otp_from_entry at h
  by_cases hr : has_references e
  · rw [if_pos hr] at h
    simp only [ExtractOutcome.err.injEq] at h
    exact Or.inl h.symm
  · rw [if_neg hr] at h
    rcases hu : otpUriOf e with _ | uri0
    · rw [hu] at h
      exact absurd h (by simp)
    · rw [hu] at h
      dsimp only at h
      by_cases hst : strStarts uri0 "otpauth://"
      · rw [if_pos hst] at h
        dsimp only at h
        rcases hp : parse_otpauth_uri uri0 with _ | d
        · rw [hp] at h
          simp only [ExtractOutcome.err.injEq] at h
          exact Or.inr (Or.inr (Or.inr h.symm))
        · rw [hp] at h
          exact absurd h (by simp)
      · rw [if_neg hst] at h
        rcases hs : simpleKeyUri e.title uri0 with c2 | uri
        · rw [hs] at h
          simp only [ExtractOutcome.err.injEq] at h
          rcases simpleKeyUri_err_codes e.title uri0 c2 hs with h2 | h2 <;>
            rw [← h, h2]
          · exact Or.inr (Or.inr (Or.inl rfl))
          · exact Or.inr (Or.inl rfl)
        · rw [hs] at h
          dsimp only at h
          rcases hp : parse_otpauth_uri uri with _ | d
          · rw [hp] at h
            simp only [ExtractOutcome.err.injEq] at h
            exact Or.inr (Or.inr (Or.inr h.symm))
          · rw [hp] at h
            exact absurd h (by simp)

theorem count_split {α : Type} (p : α → Bool) (l : List α) :
    l.countP p + l.countP (fun a => !(p a)) = l.length := by
  induction l with
  | nil => simp
  | cons a t ih =>
    simp only [List.countP_cons]
    cases hpa : p a <;> simp [hpa] <;> omega

theorem kept_skips_count (h : String → String) :
    ∀ (es : List KpEntry) (seen : List String),
    (keptPairs h seen es).length + (skipsOf h seen es).length
      = es.countP (fun e => !(extract_otp_from_entry e == ExtractOutcome.noOtp)) := by
  intro es
  induction es with
  | nil => intro seen; simp [keptPairs, skipsOf]
  | cons e rest ih =>
    intro seen
    simp only [keptPairs, skipsOf, List.countP_cons]
    cases hx : extract_otp_from_entry e with
    | noOtp =>
      dsimp only
      rw [ih seen,
          show (!(ExtractOutcome.noOtp == ExtractOutcome.noOtp)) = false from rfl,
          if_neg (by simp)]
      omega
    | err c =>
      dsimp only
      simp only [List.length_cons]
      rw [← ih seen,
          show (!(ExtractOutcome.err c == ExtractOutcome.noOtp)) = true from rfl,
          if_pos rfl]
      omega
    | ok d =>
      dsimp only
      by_cases hs : h d.secret ∈ seen
      · simp only [hs, if_true, List.length_cons]
        rw [← ih seen,
            show (!(ExtractOutcome.ok d == ExtractOutcome.noOtp)) = true from rfl,
            if_pos rfl]
        omega
      · simp only [hs, if_false, List.length_cons]
        rw [← ih (h d.secret :: seen),
            show (!(ExtractOutcome.ok d == ExtractOutcome.noOtp)) = true from rfl,
            if_pos rfl]
        omega

theorem skipsOf_reasons (h : String → String) :
    ∀ (es : List KpEntry) (seen : List String) (x : SkipItem),
    x ∈ skipsOf h seen es →
    x.reason ∈ ["Contains field references", "Simple key format not supported",
                "No secret found", "Invalid URI format", "Duplicate"] := by
  intro es
  induction es with
  | nil => intro seen x hx; simp [skipsOf] at hx
  | cons e rest ih =>
    intro seen x hx
    simp only [skipsOf] at hx
    cases hc : extract_otp_from_entry e with
    | noOtp =>
      rw [hc] at hx
      exact ih seen x hx
    | err c =>
      rw [hc] at hx
      dsimp only at hx
      rcases List.mem_cons.mp hx with h1 | h2
      · rw [h1]
        rcases extract_err_codes e c hc with h3 | h3 | h3 | h3 <;>
          simp [reasonMap, h3]
      · exact ih seen x h2
    | ok d =>
      rw [hc] at hx
      dsimp only at hx
      by_cases hs : h d.secret ∈ seen
      · rw [if_pos hs] at hx
        rcases List.mem_cons.mp hx with h1 | h2
        · rw [h1]
          simp
        · exact ih seen x h2
      · rw [if_neg hs] at hx
        exact ih _ x hx

theorem skipsOf_mem_err (h : String → String) :
    ∀ (es : List KpEntry) (seen : List String) (e : KpEntry) (c : String),
    e ∈ es → extract_otp_from_entry e = ExtractOutcome.err c →
    (⟨e.title, reasonMap c⟩ : SkipItem) ∈ skipsOf h seen es := by
  intro es
  induction es with
  | nil => intro seen e c he _; simp at he
  | cons e1 rest ih =>
    intro seen e c he hc
    simp only [skipsOf]
    rcases List.mem_cons.mp he with h1 | h2
    · subst h1
      rw [hc]
      dsimp only
      exact List.mem_cons_self _ _
    · cases hx : extract_otp_from_entry e1 with
      | noOtp => exact ih seen e c h2 hc
      | err c2 =>
        dsimp only
        exact List.mem_cons_of_mem _ (ih seen e c h2 hc)
      | ok d =>
        dsimp only
        by_cases hs : h d.secret ∈ seen
        · rw [if_pos hs]
          exact List.mem_cons_of_mem _ (ih seen e c h2 hc)
        · rw [if_neg hs]
          exact ih _ e c h2 hc

theorem kept_or_dup (h : String → String) :
    ∀ (es : List KpEntry) (seen : List String) (e : KpEntry) (d : OtpData),
    e ∈ es → extract_otp_from_entry e = ExtractOutcome.ok d →
    e.title ∈ (keptPairs h seen es).map (fun p => p.1.title)
    ∨ (⟨e.title, "Duplicate"⟩ : SkipItem) ∈ skipsOf h seen es := by
  intro es
  induction es with
  | nil => intro seen e d he _; simp at he
  | cons e1 rest ih =>
    intro seen e d he hd
    simp only [keptPairs, skipsOf]
    rcases List.mem_cons.mp he with h1 | h2
    · subst h1
      rw [hd]
      dsimp only
      by_cases hs : h d.secret ∈ seen
      · rw [if_pos hs, if_pos hs]
        exact Or.inr (List.mem_cons_self _ _)
      · rw [if_neg hs, if_neg hs]
        exact Or.inl (by simp)
    · cases hx : extract_otp_from_entry e1 with
      | noOtp => exact ih seen e d h2 hd
      | err c2 =>
        dsimp only
        rcases ih seen e d h2 hd with hres | hres
        · exact Or.inl hres
        · exact Or.inr (List.mem_cons_of_mem _ hres)
      | ok d1 =>
        dsimp only
        by_cases hs : h d1.secret ∈ seen
        · rw [if_pos hs, if_pos hs]
          rcases ih seen e d h2 hd with hres | hres
          · exact Or.inl hres
          · exact Or.inr (List.mem_cons_of_mem _ hres)
        · rw [if_neg hs, if_neg hs]
          rcases ih (h d1.secret :: seen) e d h2 hd with hres | hres
          · exact Or.inl (by simp [hres])
          · exact Or.inr hres

/-! ## Claim C8 -/

/-- C8: the pass visits every entry (total count recorded); every entry is
accounted for as imported, skipped-with-reason, or having no OTP data at
all; every skip carries one of the five reasons; a per-entry extraction
failure lands in the skip list with its mapped reason and an extracted
entry is either imported or skipped as duplicate — the batch is never
aborted. -/
theorem C8_no_abort_skips_reported (h : String → String) (es : List KpEntry) :
    (validate_input h es).stats.total_entries = es.length
    ∧ (validate_input h es).stats.imported.length
        + (validate_input h es).stats.skipped.length
        + es.countP (fun e => extract_otp_from_entry e == ExtractOutcome.noOtp)
        = es.length
    ∧ (∀ x ∈ (validate_input h es).stats.skipped,
        x.reason ∈ ["Contains field references", "Simple key format not supported",
                    "No secret found", "Invalid URI format", "Duplicate"])
    ∧ (∀ e ∈ es, ∀ c, extract_otp_from_entry e = ExtractOutcome.err c →
        (⟨e.title, reasonMap c⟩ : SkipItem) ∈ (validate_input h es).stats.skipped)
    ∧ (∀ e ∈ es, ∀ d, extract_otp_from_entry e = ExtractOutcome.ok d →
        e.title ∈ (validate_input h es).stats.imported
        ∨ (⟨e.title, "Duplicate"⟩ : SkipItem) ∈ (validate_input h es).stats.skipped) := by
  have hsk : (validate_input h es).stats.skipped = skipsOf h [] es := by
    unfold validate_input
    exact importLoop_skipped_eq h es [] [] [] []
  have him : (validate_input h es).stats.imported
      = (keptPairs h [] es).map (fun p => p.1.title) := by
    unfold validate_input
    exact importLoop_imported_eq h es [] [] [] []
  refine ⟨rfl, ?_, ?_, ?_, ?_⟩
  · rw [hsk, him]
    have hc := kept_skips_count h es []
    have htot := count_split (fun e => !(extract_otp_from_entry e == ExtractOutcome.noOtp)) es
    have hcc : es.countP (fun e => !(!(extract_otp_from_entry e == ExtractOutcome.noOtp)))
        = es.countP (fun e => extract_otp_from_entry e == ExtractOutcome.noOtp) := by
      apply List.countP_congr
      intro a _
      simp
    simp only [List.length_map]
    omega
  · rw [hsk]
    exact fun x hx => skipsOf_reasons h es [] x hx
  · rw [hsk]
    exact fun e he c hc => skipsOf_mem_err h es [] e c he hc
  · rw [him, hsk]
    exact fun e he d hd => kept_or_dup h es [] e d he hd

/-- Witness for C8 on a concrete batch containing a good entry, a bad-URI
entry and a duplicate. -/
theorem C8_no_abort_skips_reported_witness :
    ((validate_input (fun s => s)
        [⟨"A", none, none, none, none, [], some "otpauth://totp/a?secret=SEC1", "u1"⟩,
         ⟨"B", none, none, none, none, [], some "hello world", "u2"⟩,
         ⟨"C", none, none, none, none, [], some "otpauth://totp/c?secret=SEC1", "u3"⟩]).stats.total_entries = 3)
    ∧ ((⟨"B", reasonMap "simple_key_not_supported"⟩ : SkipItem)
        ∈ (validate_input (fun s => s)
        [⟨"A", none, none, none, none, [], some "otpauth://totp/a?secret=SEC1", "u1"⟩,
         ⟨"B", none, none, none, none, [], some "hello world", "u2"⟩,
         ⟨"C", none, none, none, none, [], some "otpauth://totp/c?secret=SEC1", "u3"⟩]).stats.skipped)
    ∧ ("A" ∈ (validate_input (fun s => s)
        [⟨"A", none, none, none, none, [], some "otpauth://totp/a?secret=SEC1", "u1"⟩,
         ⟨"B", none, none, none, none, [], some "hello world", "u2"⟩,
         ⟨"C", none, none, none, none, [], some "otpauth://totp/c?secret=SEC1", "u3"⟩]).stats.imported
       ∨ (⟨"A", "Duplicate"⟩ : SkipItem) ∈ (validate_input (fun s => s)
        [⟨"A", none, none, none, none, [], some "otpauth://totp/a?secret=SEC1", "u1"⟩,
         ⟨"B", none, none, none, none, [], some "hello world", "u2"⟩,
         ⟨"C", none, none, none, none, [], some "otpauth://totp/c?secret=SEC1", "u3"⟩]).stats.skipped) := by
  refine ⟨(C8_no_abort_skips_reported (fun s => s) _).1, ?_, ?_⟩
  · exact (C8_no_abort_skips_reported (fun s => s) _).2.2.2.1
      ⟨"B", none, none, none, none, [], some "hello world", "u2"⟩
      (by decide) "simple_key_not_supported" (by decide)
  · exact (C8_no_abort_skips_reported (fun s => s) _).2.2.2.2
      ⟨"A", none, none, none, none, [], some "otpauth://totp/a?secret=SEC1", "u1"⟩
      (by decide)
      { secret := "SEC1", issuer := none, account := "a", period := 30,
        digits := 6, algorithm := "SHA1", otype := "totp" }
      (by decide)

/-! ## Claim C5 -/

theorem lcStarts_map (f : Char → Char) :
    ∀ (s p : List Char), lcStarts s p = true → lcStarts (s.map f) (p.map f) = true := by
  intro s
  induction s with
  | nil =>
    intro p hp
    cases p with
    | nil => rfl
    | cons b bs => simp [lcStarts] at hp
  | cons a as ih =>
    intro p hp
    cases p with
    | nil => rfl
    | cons b bs =>
      simp only [lcStarts, Bool.and_eq_true, decide_eq_true_eq] at hp
      simp only [List.map_cons, lcStarts, Bool.and_eq_true, decide_eq_true_eq]
      exact ⟨by rw [hp.1], ih bs hp.2⟩

theorem lcContains_map (f : Char → Char) :
    ∀ (s p : List Char), lcContains s p = true → lcContains (s.map f) (p.map f) = true := by
  intro s
  induction s with
  | nil =>
    intro p hp
    simp only [lcContains] at hp ⊢
    cases p with
    | nil => rfl
    | cons b bs => simp at hp
  | cons a as ih =>
    intro p hp
    simp only [lcContains, Bool.or_eq_true] at hp
    rcases hp with hp | hp
    · simp only [List.map_cons, lcContains, Bool.or_eq_true]
      exact Or.inl (lcStarts_map f (a :: as) p hp)
    · simp only [List.map_cons, lcContains, Bool.or_eq_true]
      exact Or.inr (ih p hp)

theorem lcContains_ne_nil (s p : List Char) (hp : p ≠ [])
    (hc : lcContains s p = true) : s ≠ [] := by
  intro hs
  subst hs
  simp only [lcContains, List.isEmpty_iff] at hc
  exact hp hc

/-- The claim's plain `{REF:` containment implies the source's
upper-cased check. -/
theorem containsRef_hasRef (s : String)
    (hc : containsSubstr s "\x7bREF:" = true) : hasRef s = true := by
  unfold containsSubstr at hc
  unfold hasRef containsSubstr upperStr
  have := lcContains_map upChar s.data "\x7bREF:".data hc
  have hpat : ("\x7bREF:".data).map upChar = "\x7bREF:".data := by decide
  rw [hpat] at this
  exact this

theorem containsRef_nonempty (s : String)
    (hc : containsSubstr s "\x7bREF:" = true) : s.isEmpty = false := by
  unfold containsSubstr at hc
  have := lcContains_ne_nil s.data "\x7bREF:".data (by decide) hc
  by_cases hs : s.isEmpty
  · exfalso
    have : s = "" := (String.isEmpty_iff s).mp hs
    rw [this] at hc
    exact absurd hc (by decide)
  · simpa using hs

theorem claimRef_has_references (e : KpEntry)
    (href : anyFieldContainsRef e = true) : has_references e = true := by
  unfold anyFieldContainsRef at href
  unfold has_references optHasRef
  simp only [Bool.or_eq_true] at href ⊢
  rcases href with ((((h1 | h2) | h3) | h4) | h5) | h6
  · exact Or.inl (Or.inl (Or.inl (Or.inl (Or.inl (by
      have hne := containsRef_nonempty e.title h1
      have hr := containsRef_hasRef e.title h1
      simp [hne, hr])))))
  · rcases hu : e.username with _ | s
    · rw [hu] at h2
      simp at h2
    · rw [hu] at h2
      refine Or.inl (Or.inl (Or.inl (Or.inl (Or.inr ?_))))
      have hne := containsRef_nonempty s h2
      have hr := containsRef_hasRef s h2
      simp [hne, hr]
  · rcases hu : e.passwd with _ | s
    · rw [hu] at h3
      simp at h3
    · rw [hu] at h3
      refine Or.inl (Or.inl (Or.inl (Or.inr ?_)))
      have hne := containsRef_nonempty s h3
      have hr := containsRef_hasRef s h3
      simp [hne, hr]
  · rcases hu : e.url with _ | s
    · rw [hu] at h4
      simp at h4
    · rw [hu] at h4
      refine Or.inl (Or.inl (Or.inr ?_))
      have hne := containsRef_nonempty s h4
      have hr := containsRef_hasRef s h4
      simp [hne, hr]
  · rcases hu : e.notes with _ | s
    · rw [hu] at h5
      simp at h5
    · rw [hu] at h5
      refine Or.inl (Or.inr ?_)
      have hne := containsRef_nonempty s h5
      have hr := containsRef_hasRef s h5
      simp [hne, hr]
  · refine Or.inr ?_
    simp only [List.any_eq_true] at h6 ⊢
    obtain ⟨p, hp, hcp⟩ := h6
    refine ⟨p, hp, ?_⟩
    have hne := containsRef_nonempty p.2 hcp
    have hr := containsRef_hasRef p.2 hcp
    simp [hne, hr]

theorem importLoop_err_step (h : String → String) (st : LoopState) (e : KpEntry)
    (rest : List KpEntry) (c : String)
    (hc : extract_otp_from_entry e = ExtractOutcome.err c) :
    importLoop h st (e :: rest)
      = importLoop h { st with skipped := st.skipped ++ [⟨e.title, reasonMap c⟩] } rest := by
  simp only [importLoop]
  rw [hc]

/-- C5: an entry any of whose relevant fields contains `{REF:` is never
imported: extraction returns the field-reference error, and in any batch
the entry contributes nothing to the stored secrets or the imported list
and is recorded as skipped with the field-reference reason. -/
theorem C5_reference_entry_never_imported (e : KpEntry)
    (href : anyFieldContainsRef e = true) :
    extract_otp_from_entry e = ExtractOutcome.err "contains_field_references"
    ∧ ∀ (h : String → String) (es1 es2 : List KpEntry),
        (validate_input h (es1 ++ e :: es2)).otp_secrets
          = (validate_input h (es1 ++ es2)).otp_secrets
        ∧ (validate_input h (es1 ++ e :: es2)).stats.imported
          = (validate_input h (es1 ++ es2)).stats.imported
        ∧ (⟨e.title, "Contains field references"⟩ : SkipItem)
            ∈ (validate_input h (es1 ++ e :: es2)).stats.skipped := by
  have hext : extract_otp_from_entry e = ExtractOutcome.err "contains_field_references" := by
    unfold extract_otp_from_entry
    rw [if_pos (claimRef_has_references e href)]
  refine ⟨hext, ?_⟩
  intro h es1 es2
  unfold validate_input
  rw [importLoop_append, importLoop_append, importLoop_err_step h _ e es2 _ hext]
  rw [importLoop_skipped_shift h es2 (importLoop h ⟨[], [], [], []⟩ es1).seen
        (importLoop h ⟨[], [], [], []⟩ es1).secrets
        (importLoop h ⟨[], [], [], []⟩ es1).imported
        ((importLoop h ⟨[], [], [], []⟩ es1).skipped
          ++ [SkipItem.mk e.title (reasonMap "contains_field_references")]),
      importLoop_skipped_shift h es2 (importLoop h ⟨[], [], [], []⟩ es1).seen
        (importLoop h ⟨[], [], [], []⟩ es1).secrets
        (importLoop h ⟨[], [], [], []⟩ es1).imported
        (importLoop h ⟨[], [], [], []⟩ es1).skipped]
  refine ⟨rfl, rfl, ?_⟩
  simp [reasonMap]

/-- Witness for C5 on a concrete entry whose username holds a reference. -/
theorem C5_reference_entry_never_imported_witness :
    extract_otp_from_entry
      ⟨"D", some "\x7bREF:P@I:46C9\x7d", none, none, none, [],
        some "otpauth://totp/d?secret=AAA", "u4"⟩
      = ExtractOutcome.err "contains_field_references"
    ∧ (⟨"D", "Contains field references"⟩ : SkipItem)
        ∈ (validate_input (fun s => s)
            ([] ++ ⟨"D", some "\x7bREF:P@I:46C9\x7d", none, none, none, [],
              some "otpauth://totp/d?secret=AAA", "u4"⟩ :: [])).stats.skipped := by
  constructor
  · exact (C5_reference_entry_never_imported _ (by decide)).1
  · exact ((C5_reference_entry_never_imported _ (by decide)).2 (fun s => s) [] []).2.2

/-! ## Claim C2 -/

theorem extractedSecret_ok (e : KpEntry) (d : OtpData)
    (hx : extract_otp_from_entry e = ExtractOutcome.ok d) :
    extractedSecret e = some d.secret := by
  unfold extractedSecret
  rw [hx]

theorem extractedSecret_not_ok (e : KpEntry)
    (hx : extract_otp_from_entry e = ExtractOutcome.noOtp
      ∨ ∃ c, extract_otp_from_entry e = ExtractOutcome.err c) :
    extractedSecret e = none := by
  unfold extractedSecret
  rcases hx with hx | ⟨c, hx⟩ <;> rw [hx]

/-- Core dedup invariant: relative to the already-seen hash set, the kept
pairs contain at most one entry per secret (none if its hash was already
seen, else exactly the first carrier), and every other carrier of that
secret is recorded as a `Duplicate` skip. -/
theorem keptPairs_dedup (h : String → String) (hinj : Function.Injective h)
    (s : String) :
    ∀ (es : List KpEntry) (seen : List String),
    (h s ∈ seen →
      ((keptPairs h seen es).filter (fun p => p.2.secret == s)) = []
      ∧ (∀ e ∈ es, extractedSecret e = some s →
          (⟨e.title, "Duplicate"⟩ : SkipItem) ∈ skipsOf h seen es))
    ∧ (h s ∉ seen →
      ((keptPairs h seen es).filter (fun p => p.2.secret == s)).map Prod.fst
        = (es.filter (fun e => extractedSecret e == some s)).take 1
      ∧ (∀ e ∈ (es.filter (fun e => extractedSecret e == some s)).tail,
          (⟨e.title, "Duplicate"⟩ : SkipItem) ∈ skipsOf h seen es)) := by
  intro es
  induction es with
  | nil =>
    intro seen
    constructor
    · intro _
      refine ⟨by simp [keptPairs], ?_⟩
      intro e he
      simp at he
    · intro _
      refine ⟨by simp [keptPairs], ?_⟩
      intro e he
      simp at he
  | cons e1 rest ih =>
    intro seen
    cases hx : extract_otp_from_entry e1 with
    | noOtp =>
      have hes : extractedSecret e1 = none := extractedSecret_not_ok e1 (Or.inl hx)
      have hfe : (extractedSecret e1 == some s) = false := by
        rw [hes]
        rfl
      constructor
      · intro hseen
        refine ⟨?_, ?_⟩
        · simp only [keptPairs, hx]
          exact ((ih seen).1 hseen).1
        · intro e he hsec
          simp only [skipsOf, hx]
          rcases List.mem_cons.mp he with h1 | h2
          · subst h1
            rw [hes] at hsec
            exact absurd hsec (by simp)
          · exact ((ih seen).1 hseen).2 e h2 hsec
      · intro hseen
        refine ⟨?_, ?_⟩
        · simp only [keptPairs, skipsOf, hx, List.filter_cons, hfe]
          exact ((ih seen).2 hseen).1
        · intro e he
          simp only [List.filter_cons, hfe] at he
          simp only [skipsOf, hx]
          exact ((ih seen).2 hseen).2 e he
    | err c =>
      have hes : extractedSecret e1 = none := extractedSecret_not_ok e1 (Or.inr ⟨c, hx⟩)
      have hfe : (extractedSecret e1 == some s) = false := by
        rw [hes]
        rfl
      constructor
      · intro hseen
        refine ⟨?_, ?_⟩
        · simp only [keptPairs, hx]
          exact ((ih seen).1 hseen).1
        · intro e he hsec
          simp only [skipsOf, hx]
          rcases List.mem_cons.mp he with h1 | h2
          · subst h1
            rw [hes] at hsec
            exact absurd hsec (by simp)
          · exact List.mem_cons_of_mem _ (((ih seen).1 hseen).2 e h2 hsec)
      · intro hseen
        refine ⟨?_, ?_⟩
        · simp only [keptPairs, skipsOf, hx, List.filter_cons, hfe]
          exact ((ih seen).2 hseen).1
        · intro e he
          simp only [List.filter_cons, hfe] at he
          simp only [skipsOf, hx]
          exact List.mem_cons_of_mem _ (((ih seen).2 hseen).2 e he)
    | ok d =>
      have hes : extractedSecret e1 = some d.secret := extractedSecret_ok e1 d hx
      by_cases hdup : h d.secret ∈ seen
      · constructor
        · intro hseen
          refine ⟨?_, ?_⟩
          · simp only [keptPairs, hx]
            rw [if_pos hdup]
            exact ((ih seen).1 hseen).1
          · intro e he hsec
            simp only [skipsOf, hx]
            rw [if_pos hdup]
            rcases List.mem_cons.mp he with h1 | h2
            · subst h1
              exact List.mem_cons_self _ _
            · exact List.mem_cons_of_mem _ (((ih seen).1 hseen).2 e h2 hsec)
        · intro hseen
          have hne : d.secret ≠ s := by
            intro hds
            rw [hds] at hdup
            exact hseen hdup
          have hfe : (extractedSecret e1 == some s) = false := by
            rw [hes]
            simp [hne]
          refine ⟨?_, ?_⟩
          · simp only [keptPairs, hx]
            rw [if_pos hdup]
            simp only [List.filter_cons, hfe]
            exact ((ih seen).2 hseen).1
          · intro e he
            simp only [List.filter_cons, hfe] at he
            simp only [skipsOf, hx]
            rw [if_pos hdup]
            exact List.mem_cons_of_mem _ (((ih seen).2 hseen).2 e he)
      · have hseen2 : h s ∈ h d.secret :: seen → d.secret = s ∨ h s ∈ seen := by
          intro hmem
          rcases List.mem_cons.mp hmem with h1 | h2
          · exact Or.inl (hinj h1).symm
          · exact Or.inr h2
        constructor
        · intro hseen
          have hne : d.secret ≠ s := by
            intro hds
            rw [hds] at hdup
            exact hdup hseen
          have hfp : (d.secret == s) = false := by simp [hne]
          refine ⟨?_, ?_⟩
          · simp only [keptPairs, hx]
            rw [if_neg hdup]
            simp only [List.filter_cons, hfp]
            exact ((ih (h d.secret :: seen)).1 (List.mem_cons_of_mem _ hseen)).1
          · intro e he hsec
            simp only [skipsOf, hx]
            rw [if_neg hdup]
            rcases List.mem_cons.mp he with h1 | h2
            · subst h1
              rw [hes] at hsec
              simp only [Option.some.injEq] at hsec
              exact absurd hsec hne
            · exact ((ih (h d.secret :: seen)).1 (List.mem_cons_of_mem _ hseen)).2 e h2 hsec
        · intro hseen
          by_cases hds : d.secret = s
          · subst hds
            have hfp : (extractedSecret e1 == some d.secret) = true := by
              rw [hes]
              simp
            refine ⟨?_, ?_⟩
            · have hk := ((ih (h d.secret :: seen)).1 (List.mem_cons_self _ _)).1
              simp only [keptPairs, hx]
              rw [if_neg hdup]
              simp only [List.filter_cons, hfp,
                show ((d.secret == d.secret) = true) from by simp, if_true]
              rw [hk]
              simp
            · intro e he
              simp only [List.filter_cons, hfp] at he
              simp only [skipsOf, hx]
              rw [if_neg hdup]
              have he2 := List.mem_of_mem_filter he
              have hsec : extractedSecret e = some d.secret := by
                have := List.of_mem_filter he
                simpa using this
              exact ((ih (h d.secret :: seen)).1 (List.mem_cons_self _ _)).2 e he2 hsec
          · have hfp : (extractedSecret e1 == some s) = false := by
              rw [hes]
              simp [hds]
            have hfp2 : (d.secret == s) = false := by simp [hds]
            have hsn : h s ∉ h d.secret :: seen := by
              intro hmem
              rcases hseen2 hmem with h1 | h2
              · exact hds h1
              · exact hseen h2
            refine ⟨?_, ?_⟩
            · simp only [keptPairs, hx]
              rw [if_neg hdup]
              simp only [List.filter_cons, hfp, hfp2]
              exact ((ih (h d.secret :: seen)).2 hsn).1
            · intro e he
              simp only [List.filter_cons, hfp] at he
              simp only [skipsOf, hx]
              rw [if_neg hdup]
              exact ((ih (h d.secret :: seen)).2 hsn).2 e he

theorem take_one_head {α : Type} (l : List α) (a : α) (h : l.take 1 = [a]) :
    l.head? = some a := by
  cases l with
  | nil => simp at h
  | cons b t =>
    simp only [List.take_succ_cons, List.take_zero, List.cons.injEq] at h
    rw [h.1]
    rfl

/-- C2: with an injective content hash and distinct entry uuids, when two
or more entries carry byte-identical secrets the import keeps exactly one
Secret Record for that secret — the one from the first carrier in
iteration order — and every later carrier is skipped as `Duplicate`. -/
theorem C2_dedup_by_content_hash (h : String → String)
    (hinj : Function.Injective h) (es : List KpEntry)
    (hu : (es.map KpEntry.uuid).Nodup) (s : String)
    (hcar : 2 ≤ (es.filter (fun e => extractedSecret e == some s)).length) :
    ∃ e0 d0,
      (es.filter (fun e => extractedSecret e == some s)).head? = some e0
      ∧ extract_otp_from_entry e0 = ExtractOutcome.ok d0
      ∧ ((validate_input h es).otp_secrets.filter (fun p => p.2.secret == s))
          = [(e0.uuid, mkRec e0 d0)]
      ∧ ∀ e ∈ (es.filter (fun e => extractedSecret e == some s)).tail,
          (⟨e.title, "Duplicate"⟩ : SkipItem) ∈ (validate_input h es).stats.skipped := by
  have hrec : (validate_input h es).otp_secrets
      = (keptPairs h [] es).map (fun p => (p.1.uuid, mkRec p.1 p.2)) := by
    unfold validate_input
    have := importLoop_secrets_eq h es [] [] [] [] (by simp) hu
    simpa using this
  have hsk : (validate_input h es).stats.skipped = skipsOf h [] es := by
    unfold validate_input
    exact importLoop_skipped_eq h es [] [] [] []
  have hded := (keptPairs_dedup h hinj s es []).2 (by simp)
  have hcomm : ((keptPairs h [] es).map (fun p => (p.1.uuid, mkRec p.1 p.2))).filter
        (fun p => p.2.secret == s)
      = ((keptPairs h [] es).filter (fun p => p.2.secret == s)).map
        (fun p => (p.1.uuid, mkRec p.1 p.2)) :=
    List.filter_map (fun p => (p.1.uuid, mkRec p.1 p.2)) (keptPairs h [] es)
  rcases hf : (keptPairs h [] es).filter (fun p => p.2.secret == s) with _ | ⟨p0, rest0⟩
  · exfalso
    have hmap := hded.1
    rw [hf] at hmap
    simp only [List.map_nil] at hmap
    rcases hcs : es.filter (fun e => extractedSecret e == some s) with _ | ⟨c0, cr⟩
    · rw [hcs] at hcar
      simp at hcar
    · rw [hcs] at hmap
      simp at hmap
  · rcases rest0 with _ | ⟨p1, rest1⟩
    · have hmap := hded.1
      rw [hf] at hmap
      simp only [List.map_cons, List.map_nil] at hmap
      have hmem : p0 ∈ (keptPairs h [] es).filter (fun p => p.2.secret == s) := by
        rw [hf]
        exact List.mem_cons_self _ _
      refine ⟨p0.1, p0.2, ?_, ?_, ?_, ?_⟩
      · exact take_one_head _ _ hmap.symm
      · exact keptPairs_sound h es [] p0 (List.mem_of_mem_filter hmem)
      · rw [hrec, hcomm, hf]
        rfl
      · intro e he
        rw [hsk]
        exact hded.2 e he
    · exfalso
      have hmap := hded.1
      rw [hf] at hmap
      have hlen1 : ((es.filter (fun e => extractedSecret e == some s)).take 1).length ≤ 1 :=
        List.length_take_le 1 (es.filter (fun e => extractedSecret e == some s))
      rw [← hmap] at hlen1
      simp at hlen1

/-- Witness for C2 on two concrete entries with the same secret. -/
theorem C2_dedup_by_content_hash_witness :
    ∃ e0 d0,
      (([⟨"A", none, none, none, none, [],
           some "otpauth://totp/a?secret=SECRETX", "u1"⟩,
         ⟨"B", none, none, none, none, [],
           some "otpauth://totp/b?secret=SECRETX", "u2"⟩] : List KpEntry).filter
          (fun e => extractedSecret e == some "SECRETX")).head? = some e0
      ∧ extract_otp_from_entry e0 = ExtractOutcome.ok d0
      ∧ (((validate_input (fun x => x)
          [⟨"A", none, none, none, none, [],
             some "otpauth://totp/a?secret=SECRETX", "u1"⟩,
           ⟨"B", none, none, none, none, [],
             some "otpauth://totp/b?secret=SECRETX", "u2"⟩]).otp_secrets).filter
          (fun p => p.2.secret == "SECRETX")) = [(e0.uuid, mkRec e0 d0)]
      ∧ ∀ e ∈ (([⟨"A", none, none, none, none, [],
           some "otpauth://totp/a?secret=SECRETX", "u1"⟩,
         ⟨"B", none, none, none, none, [],
           some "otpauth://totp/b?secret=SECRETX", "u2"⟩] : List KpEntry).filter
          (fun e => extractedSecret e == some "SECRETX")).tail,
          (⟨e.title, "Duplicate"⟩ : SkipItem)
            ∈ (validate_input (fun x => x)
          [⟨"A", none, none, none, none, [],
             some "otpauth://totp/a?secret=SECRETX", "u1"⟩,
           ⟨"B", none, none, none, none, [],
             some "otpauth://totp/b?secret=SECRETX", "u2"⟩]).stats.skipped :=
  C2_dedup_by_content_hash (fun x => x) (fun a b hab => hab)
    [⟨"A", none, none, none, none, [], some "otpauth://totp/a?secret=SECRETX", "u1"⟩,
     ⟨"B", none, none, none, none, [], some "otpauth://totp/b?secret=SECRETX", "u2"⟩]
    (by decide) "SECRETX" (by decide)

/-! ## Claim C10: list and character helpers -/

theorem splitOnce_append (c : Char) (ys : List Char) :
    ∀ xs : List Char, (∀ x ∈ xs, x ≠ c) →
    splitOnceChar c (xs ++ c :: ys) = some (xs, ys) := by
  intro xs
  induction xs with
  | nil =>
    intro _
    simp [splitOnceChar]
  | cons a t ih =>
    intro hx
    have ha : a ≠ c := hx a (List.mem_cons_self a t)
    simp only [List.cons_append, splitOnceChar, ha, if_false, List.append_eq]
    rw [ih (fun x hx2 => hx x (List.mem_cons_of_mem a hx2))]

theorem splitOnce_none (c : Char) :
    ∀ l : List Char, (∀ x ∈ l, x ≠ c) → splitOnceChar c l = none := by
  intro l
  induction l with
  | nil => intro _; rfl
  | cons a t ih =>
    intro hx
    have ha : a ≠ c := hx a (List.mem_cons_self a t)
    simp only [splitOnceChar, ha, if_false, List.append_eq]
    rw [ih (fun x hx2 => hx x (List.mem_cons_of_mem a hx2))]

theorem splitSep_no (c : Char) :
    ∀ xs : List Char, (∀ x ∈ xs, x ≠ c) → splitSep c xs = [xs] := by
  intro xs
  induction xs with
  | nil => intro _; rfl
  | cons a t ih =>
    intro hx
    have ha : a ≠ c := hx a (List.mem_cons_self a t)
    simp only [splitSep, ha, if_false, List.append_eq]
    rw [ih (fun x hx2 => hx x (List.mem_cons_of_mem a hx2))]

theorem splitSep_append (c : Char) (ys : List Char) :
    ∀ xs : List Char, (∀ x ∈ xs, x ≠ c) →
    splitSep c (xs ++ c :: ys) = xs :: splitSep c ys := by
  intro xs
  induction xs with
  | nil =>
    intro _
    simp [splitSep]
  | cons a t ih =>
    intro hx
    have ha : a ≠ c := hx a (List.mem_cons_self a t)
    simp only [List.cons_append, splitSep, ha, if_false, List.append_eq]
    rw [ih (fun x hx2 => hx x (List.mem_cons_of_mem a hx2))]

theorem takeWhile_middle (p : Char → Bool) (y : Char) (ys : List Char)
    (hy : p y = false) :
    ∀ xs : List Char, (∀ x ∈ xs, p x = true) →
    (xs ++ y :: ys).takeWhile p = xs := by
  intro xs
  induction xs with
  | nil =>
    intro _
    simp [List.takeWhile_cons, hy]
  | cons a t ih =>
    intro hx
    have ha : p a = true := hx a (List.mem_cons_self a t)
    simp only [List.cons_append, List.takeWhile_cons, ha, if_true]
    rw [ih (fun x hx2 => hx x (List.mem_cons_of_mem a hx2))]

theorem dropWhile_head_eq_self (p : Char → Bool) (l : List Char)
    (h : ∀ x, l.head? = some x → p x = false) : l.dropWhile p = l := by
  cases l with
  | nil => rfl
  | cons a t =>
    apply List.dropWhile_cons_of_neg
    rw [h a rfl]
    simp

theorem stripC0_eq_self (l : List Char)
    (h1 : l.dropWhile (· ≤ ' ') = l)
    (h2 : l.reverse.dropWhile (· ≤ ' ') = l.reverse) : stripC0 l = l := by
  unfold stripC0
  rw [h1, h2, List.reverse_reverse]

theorem unquote_ident :
    ∀ l : List Char, (∀ c ∈ l, c ≠ '%' ∧ c ≠ '+') → unquotePlus l = l := by
  intro l
  induction l with
  | nil => intro _; rfl
  | cons a t ih =>
    intro hc
    have ha := hc a (List.mem_cons_self a t)
    have ht : ∀ c ∈ t, c ≠ '%' ∧ c ≠ '+' :=
      fun c hct => hc c (List.mem_cons_of_mem a hct)
    rw [unquotePlus.eq_def]
    simp only [ha.1, ha.2, if_false]
    rw [ih ht]

theorem mem_takeWhile_pred (p : Char → Bool) :
    ∀ (l : List Char) (x : Char), x ∈ l.takeWhile p → p x = true := by
  intro l
  induction l with
  | nil => intro x hx; simp at hx
  | cons a t ih =>
    intro x hx
    by_cases ha : p a
    · rw [List.takeWhile_cons_of_pos ha] at hx
      rcases List.mem_cons.mp hx with h1 | h2
      · rw [h1]
        exact ha
      · exact ih x h2
    · rw [List.takeWhile_cons_of_neg ha] at hx
      simp at hx

theorem char_le_toNat {a b : Char} (h : a ≤ b) : a.toNat ≤ b.toNat := by
  simp only [Char.le_def, UInt32.le_def, UInt32.toBitVec] at h
  unfold Char.toNat UInt32.toNat
  exact h

theorem char_toNat_ofNat (n : Nat) (h : Nat.isValidChar n) :
    (Char.ofNat n).toNat = n := by
  simp [Char.ofNat, h, Char.toNat, Char.ofNatAux, UInt32.toNat]

theorem char_toNat_inj {a b : Char} (h : a.toNat = b.toNat) : a = b :=
  Char.eq_of_val_eq (UInt32.toNat.inj h)

theorem char_ne_of_range {c : Char} {lo hi : Nat} (b : Char)
    (hlo : lo ≤ c.toNat) (hhi : c.toNat ≤ hi)
    (hb : b.toNat < lo ∨ hi < b.toNat) : c ≠ b := by
  intro he
  subst he
  omega

theorem upChar_of_not_lower (c : Char) (h : ¬('a' ≤ c ∧ c ≤ 'z')) :
    upChar c = c := if_neg h

theorem upChar_b32_clean (c : Char) (h : isB32ci c = true) :
    cleanSChar (upChar c) := by
  simp only [isB32ci, Bool.or_eq_true, Bool.and_eq_true, decide_eq_true_eq] at h
  rcases h with (h | h) | h
  · have h1 := char_le_toNat h.1
    have h2 := char_le_toNat h.2
    have hA : ('A' : Char).toNat = 65 := by decide
    have hZ : ('Z' : Char).toNat = 90 := by decide
    rw [hA] at h1
    rw [hZ] at h2
    have hnl : ¬('a' ≤ c ∧ c ≤ 'z') := by
      rintro ⟨hl, _⟩
      have := char_le_toNat hl
      have ha : ('a' : Char).toNat = 97 := by decide
      omega
    rw [upChar_of_not_lower c hnl]
    exact ⟨char_ne_of_range '\t' h1 h2 (by left; decide),
           char_ne_of_range '\r' h1 h2 (by left; decide),
           char_ne_of_range '\n' h1 h2 (by left; decide),
           char_ne_of_range '#' h1 h2 (by left; decide),
           char_ne_of_range '&' h1 h2 (by left; decide),
           char_ne_of_range '%' h1 h2 (by left; decide),
           char_ne_of_range '+' h1 h2 (by left; decide)⟩
  · have h1 := char_le_toNat h.1
    have h2 := char_le_toNat h.2
    have ha : ('a' : Char).toNat = 97 := by decide
    have hz : ('z' : Char).toNat = 122 := by decide
    rw [ha] at h1
    rw [hz] at h2
    have : upChar c = Char.ofNat (c.toNat - 32) := if_pos ⟨h.1, h.2⟩
    rw [this]
    have hval : Nat.isValidChar (c.toNat - 32) := Or.inl (by omega)
    have htn : (Char.ofNat (c.toNat - 32)).toNat = c.toNat - 32 :=
      char_toNat_ofNat _ hval
    have h1u : 65 ≤ (Char.ofNat (c.toNat - 32)).toNat := by omega
    have h2u : (Char.ofNat (c.toNat - 32)).toNat ≤ 90 := by omega
    exact ⟨char_ne_of_range '\t' h1u h2u (by left; decide),
           char_ne_of_range '\r' h1u h2u (by left; decide),
           char_ne_of_range '\n' h1u h2u (by left; decide),
           char_ne_of_range '#' h1u h2u (by left; decide),
           char_ne_of_range '&' h1u h2u (by left; decide),
           char_ne_of_range '%' h1u h2u (by left; decide),
           char_ne_of_range '+' h1u h2u (by left; decide)⟩
  · have h1 := char_le_toNat h.1
    have h2 := char_le_toNat h.2
    have h5 : ('2' : Char).toNat = 50 := by decide
    have h7 : ('7' : Char).toNat = 55 := by decide
    rw [h5] at h1
    rw [h7] at h2
    have hnl : ¬('a' ≤ c ∧ c ≤ 'z') := by
      rintro ⟨hl, _⟩
      have := char_le_toNat hl
      have ha : ('a' : Char).toNat = 97 := by decide
      omega
    rw [upChar_of_not_lower c hnl]
    exact ⟨char_ne_of_range '\t' h1 h2 (by left; decide),
           char_ne_of_range '\r' h1 h2 (by left; decide),
           char_ne_of_range '\n' h1 h2 (by left; decide),
           char_ne_of_range '#' h1 h2 (by left; decide),
           char_ne_of_range '&' h1 h2 (by left; decide),
           char_ne_of_range '%' h1 h2 (by left; decide),
           char_ne_of_range '+' h1 h2 (by left; decide)⟩

theorem upChar_eq_clean (c : Char) (h : c = '=') : cleanSChar (upChar c) := by
  subst h
  refine ⟨?_, ?_, ?_, ?_, ?_, ?_, ?_⟩ <;> decide

theorem parseQs_constructed (S : List Char) (hne : S ≠ [])
    (hS : ∀ c ∈ S, cleanSChar c) :
    parseQsModel (String.mk ("secret=".data ++ (S ++ "&period=30&digits=6&algorithm=SHA1".data)))
      = [("secret", String.mk S), ("period", "30"), ("digits", "6"),
         ("algorithm", "SHA1")] := by
  have hsplit1 : "&period=30&digits=6&algorithm=SHA1".data
      = '&' :: "period=30&digits=6&algorithm=SHA1".data := by decide
  have hlitamp : ∀ x ∈ "secret=".data, x ≠ '&' := by decide
  have hnoamp : ∀ x ∈ "secret=".data ++ S, x ≠ '&' := by
    intro x hx
    rcases List.mem_append.mp hx with h1 | h2
    · exact hlitamp x h1
    · exact (hS x h2).2.2.2.2.1
  have hq : "secret=".data ++ (S ++ '&' :: "period=30&digits=6&algorithm=SHA1".data)
      = ("secret=".data ++ S) ++ '&' :: "period=30&digits=6&algorithm=SHA1".data := by
    simp
  unfold parseQsModel
  show ((splitSep '&' ("secret=".data ++ (S ++ "&period=30&digits=6&algorithm=SHA1".data))).filterMap pairOf) = _
  rw [hsplit1, hq, splitSep_append '&' _ _ hnoamp]
  have hrest : splitSep '&' "period=30&digits=6&algorithm=SHA1".data
      = ["period=30".data, "digits=6".data, "algorithm=SHA1".data] := by decide
  rw [hrest]
  have hseg : "secret=".data ++ S = "secret".data ++ '=' :: S := by
    have : "secret=".data = "secret".data ++ ['='] := by decide
    rw [this]
    simp
  have hpair : pairOf ("secret=".data ++ S) = some ("secret", String.mk S) := by
    rw [hseg]
    unfold pairOf
    have hie : ("secret".data ++ '=' :: S).isEmpty = false := rfl
    rw [hie]
    simp only [Bool.false_eq_true, if_false]
    rw [splitOnce_append '=' S "secret".data (by decide)]
    have hvne : S.isEmpty = false := by
      cases S with
      | nil => exact absurd rfl hne
      | cons a t => rfl
    simp only [hvne, Bool.false_eq_true, if_false]
    rw [unquote_ident "secret".data (by decide),
        unquote_ident S (fun c hc => ⟨(hS c hc).2.2.2.2.2.1, (hS c hc).2.2.2.2.2.2⟩)]
  rw [List.filterMap_cons, hpair]
  rw [show List.filterMap pairOf ["period=30".data, "digits=6".data, "algorithm=SHA1".data]
      = [("period", "30"), ("digits", "6"), ("algorithm", "SHA1")] from by decide]

theorem urlparse_constructed (T S : List Char)
    (hT : ∀ c ∈ T, cleanTChar c) (_hne : S ≠ []) (hS : ∀ c ∈ S, cleanSChar c) :
    urlparseModel (String.mk ("otpauth://totp/".data
        ++ (T ++ ("?secret=".data ++ (S ++ "&period=30&digits=6&algorithm=SHA1".data)))))
      = ⟨"otpauth", "totp", String.mk ('/' :: T),
         String.mk ("secret=".data ++ (S ++ "&period=30&digits=6&algorithm=SHA1".data)),
         ""⟩ := by
  have hremove : removeUnsafe ("otpauth://totp/".data
      ++ (T ++ ("?secret=".data ++ (S ++ "&period=30&digits=6&algorithm=SHA1".data))))
      = "otpauth://totp/".data
      ++ (T ++ ("?secret=".data ++ (S ++ "&period=30&digits=6&algorithm=SHA1".data))) := by
    apply List.filter_eq_self.mpr
    intro a ha
    have hlit1 : ∀ x ∈ "otpauth://totp/".data,
        (x ≠ '\t' && x ≠ '\r' && x ≠ '\n') = true := by decide
    have hlit2 : ∀ x ∈ "?secret=".data,
        (x ≠ '\t' && x ≠ '\r' && x ≠ '\n') = true := by decide
    have hlit3 : ∀ x ∈ "&period=30&digits=6&algorithm=SHA1".data,
        (x ≠ '\t' && x ≠ '\r' && x ≠ '\n') = true := by decide
    rcases List.mem_append.mp ha with h1 | h1
    · exact hlit1 a h1
    rcases List.mem_append.mp h1 with h2 | h2
    · obtain ⟨hb1, hb2, hb3, _⟩ := hT a h2
      simp [hb1, hb2, hb3]
    rcases List.mem_append.mp h2 with h3 | h3
    · exact hlit2 a h3
    rcases List.mem_append.mp h3 with h4 | h4
    · obtain ⟨hb1, hb2, hb3, _⟩ := hS a h4
      simp [hb1, hb2, hb3]
    · exact hlit3 a h4
  have hQL : "&period=30&digits=6&algorithm=SHA1".data
      = "&period=30&digits=6&algorithm=SHA".data ++ ['1'] := by decide
  have hshape : "otpauth://totp/".data
      ++ (T ++ ("?secret=".data ++ (S ++ "&period=30&digits=6&algorithm=SHA1".data)))
      = ("otpauth://totp/".data
          ++ (T ++ ("?secret=".data ++ (S ++ "&period=30&digits=6&algorithm=SHA".data))))
        ++ ['1'] := by
    rw [hQL]
    simp
  have hstrip : stripC0 ("otpauth://totp/".data
      ++ (T ++ ("?secret=".data ++ (S ++ "&period=30&digits=6&algorithm=SHA1".data))))
      = "otpauth://totp/".data
      ++ (T ++ ("?secret=".data ++ (S ++ "&period=30&digits=6&algorithm=SHA1".data))) := by
    apply stripC0_eq_self
    · apply dropWhile_head_eq_self
      intro x hx
      have hh : ("otpauth://totp/".data
          ++ (T ++ ("?secret=".data
            ++ (S ++ "&period=30&digits=6&algorithm=SHA1".data)))).head? = some 'o' := rfl
      rw [hh] at hx
      simp only [Option.some.injEq] at hx
      rw [← hx]
      decide
    · rw [hshape, List.reverse_append]
      apply dropWhile_head_eq_self
      intro x hx
      rw [show (['1'].reverse
          ++ ("otpauth://totp/".data
            ++ (T ++ ("?secret=".data
              ++ (S ++ "&period=30&digits=6&algorithm=SHA".data)))).reverse).head?
          = some '1' from rfl] at hx
      simp only [Option.some.injEq] at hx
      rw [← hx]
      decide
  have hcolonlit : ∀ x ∈ "otpauth".data, x ≠ ':' := by decide
  have hcolshape : "otpauth://totp/".data
      ++ (T ++ ("?secret=".data ++ (S ++ "&period=30&digits=6&algorithm=SHA1".data)))
      = "otpauth".data ++ ':'
        :: ("//totp/".data
            ++ (T ++ ("?secret=".data ++ (S ++ "&period=30&digits=6&algorithm=SHA1".data)))) := by
    rw [show "otpauth://totp/".data = "otpauth".data ++ ':' :: "//totp/".data from by decide]
    simp
  have hcolon : splitOnceChar ':' ("otpauth://totp/".data
      ++ (T ++ ("?secret=".data ++ (S ++ "&period=30&digits=6&algorithm=SHA1".data))))
      = some ("otpauth".data,
          "//totp/".data
            ++ (T ++ ("?secret=".data ++ (S ++ "&period=30&digits=6&algorithm=SHA1".data)))) := by
    rw [hcolshape]
    exact splitOnce_append ':' _ _ hcolonlit
  have hvalid : validScheme "otpauth".data = true := by decide
  have hlow : "otpauth".data.map lowChar = "otpauth".data := by decide
  have hrest : "//totp/".data
      ++ (T ++ ("?secret=".data ++ (S ++ "&period=30&digits=6&algorithm=SHA1".data)))
      = '/' :: '/' :: ("totp".data
          ++ ('/' :: (T ++ ("?secret=".data
              ++ (S ++ "&period=30&digits=6&algorithm=SHA1".data))))) := rfl
  have htake : ("totp".data
      ++ ('/' :: (T ++ ("?secret=".data
          ++ (S ++ "&period=30&digits=6&algorithm=SHA1".data))))).takeWhile notNetlocDelim
      = "totp".data :=
    takeWhile_middle notNetlocDelim '/' _ (by decide) "totp".data (by decide)
  have hfragnone : splitOnceChar '#'
      ('/' :: (T ++ ("?secret=".data
          ++ (S ++ "&period=30&digits=6&algorithm=SHA1".data)))) = none := by
    apply splitOnce_none
    intro x hx
    rcases List.mem_cons.mp hx with h1 | h1
    · rw [h1]
      decide
    rcases List.mem_append.mp h1 with h2 | h2
    · exact (hT x h2).2.2.2.1
    rcases List.mem_append.mp h2 with h3 | h3
    · revert h3
      have : ∀ x ∈ "?secret=".data, x ≠ '#' := by decide
      exact this x
    rcases List.mem_append.mp h3 with h4 | h4
    · exact (hS x h4).2.2.2.1
    · revert h4
      have : ∀ x ∈ "&period=30&digits=6&algorithm=SHA1".data, x ≠ '#' := by decide
      exact this x
  have hqshape : '/' :: (T ++ ("?secret=".data
      ++ (S ++ "&period=30&digits=6&algorithm=SHA1".data)))
      = ('/' :: T) ++ '?'
        :: ("secret=".data ++ (S ++ "&period=30&digits=6&algorithm=SHA1".data)) := by
    rw [show "?secret=".data = '?' :: "secret=".data from by decide]
    simp
  have hquery : splitOnceChar '?'
      ('/' :: (T ++ ("?secret=".data
          ++ (S ++ "&period=30&digits=6&algorithm=SHA1".data))))
      = some ('/' :: T,
          "secret=".data ++ (S ++ "&period=30&digits=6&algorithm=SHA1".data)) := by
    rw [hqshape]
    apply splitOnce_append
    intro x hx
    rcases List.mem_cons.mp hx with h1 | h1
    · rw [h1]
      decide
    · exact (hT x h1).2.2.2.2.1
  unfold urlparseModel
  rw [show (String.mk ("otpauth://totp/".data
      ++ (T ++ ("?secret=".data
          ++ (S ++ "&period=30&digits=6&algorithm=SHA1".data))))).data
      = "otpauth://totp/".data
      ++ (T ++ ("?secret=".data
          ++ (S ++ "&period=30&digits=6&algorithm=SHA1".data))) from rfl]
  rw [hremove, hstrip]
  simp only [hcolon, hvalid, if_true, hlow, hrest, htake, List.drop_left,
    hfragnone, hquery]

theorem labelOf_slash (T : List Char) (hT : ∀ c ∈ T, cleanTChar c) :
    labelOf (String.mk ('/' :: T)) = String.mk T := by
  unfold labelOf
  rw [show (String.mk ('/' :: T)).data = '/' :: T from rfl]
  rw [List.dropWhile_cons_of_pos (by decide)]
  rw [dropWhile_head_eq_self _ T ?hh]
  case hh =>
    intro x hx
    cases T with
    | nil => simp at hx
    | cons a t =>
      simp only [List.head?_cons, Option.some.injEq] at hx
      have := (hT a (List.mem_cons_self a t)).2.2.2.2.2.2
      rw [hx] at this
      simp [this]

theorem splitLabel_no_colon (T : List Char) (hT : ∀ c ∈ T, cleanTChar c) :
    splitLabel (String.mk T) = (none, String.mk T) := by
  unfold splitLabel
  rw [show (String.mk T).data = T from rfl]
  rw [splitOnce_none ':' T (fun x hx => (hT x hx).2.2.2.2.2.1)]

/-- Parsing the URI `_extract_otp_from_entry` constructs from a simple key:
account label `T`, secret `S`, defaults for everything else. -/
theorem parse_constructed (T S : List Char) (hT : ∀ c ∈ T, cleanTChar c)
    (hne : S ≠ []) (hS : ∀ c ∈ S, cleanSChar c) :
    parse_otpauth_uri (String.mk ("otpauth://totp/".data
        ++ (T ++ ("?secret=".data ++ (S ++ "&period=30&digits=6&algorithm=SHA1".data)))))
      = some { secret := String.mk S, issuer := none, account := String.mk T,
               period := 30, digits := 6, algorithm := "SHA1", otype := "totp" } := by
  unfold parse_otpauth_uri
  rw [urlparse_constructed T S hT hne hS]
  dsimp only
  rw [if_neg (by simp : ¬("otpauth" ≠ "otpauth"))]
  rw [if_neg (by simp : ¬(("totp" : String) ≠ "totp" ∧ ("totp" : String) ≠ "hotp"))]
  rw [labelOf_slash T hT]
  rw [show parseQsModel (String.mk ("secret=".data
      ++ (S ++ "&period=30&digits=6&algorithm=SHA1".data)))
      = [("secret", String.mk S), ("period", "30"), ("digits", "6"),
         ("algorithm", "SHA1")] from parseQs_constructed S hne hS]
  unfold parseWithParams
  rw [show getParam [("secret", String.mk S), ("period", "30"), ("digits", "6"),
        ("algorithm", "SHA1")] "secret" = some (String.mk S) from rfl]
  dsimp only
  rw [show getParamD [("secret", String.mk S), ("period", "30"), ("digits", "6"),
        ("algorithm", "SHA1")] "period" "30" = "30" from rfl]
  rw [show getParamD [("secret", String.mk S), ("period", "30"), ("digits", "6"),
        ("algorithm", "SHA1")] "digits" "6" = "6" from rfl]
  rw [show pyInt "30" = some 30 from by decide]
  rw [show pyInt "6" = some 6 from by decide]
  dsimp only
  rw [show getParam [("secret", String.mk S), ("period", "30"), ("digits", "6"),
        ("algorithm", "SHA1")] "issuer" = none from rfl]
  rw [show getParamD [("secret", String.mk S), ("period", "30"), ("digits", "6"),
        ("algorithm", "SHA1")] "algorithm" "SHA1" = "SHA1" from rfl]
  rw [splitLabel_no_colon T hT]

theorem matchKeyAt_chars (l g : List Char) (h : matchKeyAt l = some g) :
    g ≠ [] ∧ ∀ c ∈ g, isB32ci c = true := by
  unfold matchKeyAt at h
  split at h
  · split at h
    · split at h
      · dsimp only at h
        split at h
        · exact absurd h (by simp)
        · simp only [Option.some.injEq] at h
          subst h
          constructor
          · rename_i hgrp
            simpa using hgrp
          · intro c hc
            exact mem_takeWhile_pred isB32ci _ c hc
      · exact absurd h (by simp)
    · exact absurd h (by simp)
  · exact absurd h (by simp)

theorem searchKey_chars :
    ∀ (l g : List Char), searchKey l = some g →
    g ≠ [] ∧ ∀ c ∈ g, isB32ci c = true := by
  intro l
  induction l with
  | nil => intro g h; simp [searchKey] at h
  | cons a t ih =>
    intro g h
    unfold searchKey at h
    rcases hm : matchKeyAt (a :: t) with _ | g2
    · rw [hm] at h
      exact ih g h
    · rw [hm] at h
      simp only [Option.some.injEq] at h
      subst h
      exact matchKeyAt_chars (a :: t) g2 hm

theorem isPlainB32_chars (l : List Char) (h : isPlainB32 l = true) :
    ∀ c ∈ l, isB32upper c = true ∨ c = '=' := by
  unfold isPlainB32 at h
  simp only [Bool.and_eq_true] at h
  intro c hc
  rw [← List.takeWhile_append_dropWhile (p := isB32upper) (l := l)] at hc
  rcases List.mem_append.mp hc with h1 | h1
  · exact Or.inl (mem_takeWhile_pred isB32upper _ c h1)
  · right
    have := List.all_eq_true.mp h.2 c h1
    simpa using this

theorem isB32upper_ci (c : Char) (h : isB32upper c = true) : isB32ci c = true := by
  simp only [isB32upper, Bool.or_eq_true] at h
  simp only [isB32ci, Bool.or_eq_true]
  rcases h with h | h
  · exact Or.inl (Or.inl h)
  · exact Or.inr h

theorem sanitize_clean (title : String)
    (ht : ∀ c ∈ title.data, c ≠ '\t' ∧ c ≠ '\r' ∧ c ≠ '\n' ∧ c ≠ '?' ∧ c ≠ '#') :
    ∀ c ∈ (sanitizeTitle title).data, cleanTChar c := by
  intro c hc
  unfold sanitizeTitle replChar at hc
  rw [show (String.mk ((String.mk (title.data.map fun c => if c = ':' then '_' else c)).data.map
      fun c => if c = '/' then '_' else c)).data
      = (title.data.map fun c => if c = ':' then '_' else c).map
          (fun c => if c = '/' then '_' else c) from rfl] at hc
  rw [List.map_map] at hc
  obtain ⟨x, hx, hxc⟩ := List.mem_map.mp hc
  obtain ⟨h1, h2, h3, h4, h5⟩ := ht x hx
  subst hxc
  simp only [Function.comp]
  by_cases hc1 : x = ':'
  · rw [if_pos hc1]
    rw [if_neg (by decide : ¬(('_' : Char) = '/'))]
    refine ⟨?_, ?_, ?_, ?_, ?_, ?_, ?_⟩ <;> decide
  · rw [if_neg hc1]
    by_cases hc2 : x = '/'
    · rw [if_pos hc2]
      refine ⟨?_, ?_, ?_, ?_, ?_, ?_, ?_⟩ <;> decide
    · rw [if_neg hc2]
      exact ⟨h1, h2, h3, h5, h4, hc1, hc2⟩

theorem strmk_isEmpty_false (a : Char) (t : List Char) :
    (String.mk (a :: t)).isEmpty = false := by
  by_cases hb : (String.mk (a :: t)).isEmpty
  · exfalso
    have h1 := (String.isEmpty_iff _).mp hb
    have hd := congrArg String.data h1
    simp at hd
  · simpa using hb

/-- C10 (amended): behaviour of the simple-key fallback for an entry whose
OTP value does not start with `otpauth://` (the `key=` search is
case-insensitive, the plain form is uppercase-only but may carry `=`
padding counted towards the length check; the secret is upper-cased; the
title's `:` and `/` become `_`; titles are assumed free of characters that
the URI parser would reinterpret). -/
theorem C10_simple_key_fallback (e : KpEntry) (v : String)
    (huri : otpUriOf e = some v)
    (href : has_references e = false)
    (hnot : strStarts v "otpauth://" = false)
    (htitle : ∀ c ∈ e.title.data, c ≠ '\t' ∧ c ≠ '\r' ∧ c ≠ '\n' ∧ c ≠ '?' ∧ c ≠ '#') :
    (∀ g, searchKey v.data = some g → 16 ≤ g.length →
      extract_otp_from_entry e = ExtractOutcome.ok
        { secret := String.mk (g.map upChar), issuer := none,
          account := sanitizeTitle e.title, period := 30, digits := 6,
          algorithm := "SHA1", otype := "totp",
          url := entryUrlOpt e, username := entryUserOpt e })
    ∧ (∀ g, searchKey v.data = some g → g.length < 16 →
        extract_otp_from_entry e = ExtractOutcome.err "no_secret_found")
    ∧ (searchKey v.data = none → isPlainB32 (pyStrip v).data = true →
        16 ≤ (pyStrip v).length →
        extract_otp_from_entry e = ExtractOutcome.ok
          { secret := upperStr (pyStrip v), issuer := none,
            account := sanitizeTitle e.title, period := 30, digits := 6,
            algorithm := "SHA1", otype := "totp",
            url := entryUrlOpt e, username := entryUserOpt e })
    ∧ (searchKey v.data = none → isPlainB32 (pyStrip v).data = true →
        (pyStrip v).length < 16 →
        extract_otp_from_entry e = ExtractOutcome.err "no_secret_found")
    ∧ (searchKey v.data = none → isPlainB32 (pyStrip v).data = false →
        extract_otp_from_entry e = ExtractOutcome.err "simple_key_not_supported") := by
  have hok : ∀ sec : String, sec.data ≠ [] → (∀ c ∈ sec.data, cleanSChar c) →
      parse_otpauth_uri (constructedUri e.title sec)
        = some { secret := sec, issuer := none, account := sanitizeTitle e.title,
                 period := 30, digits := 6, algorithm := "SHA1", otype := "totp" } := by
    intro sec hsne hcs
    have hcu : constructedUri e.title sec = String.mk ("otpauth://totp/".data
        ++ ((sanitizeTitle e.title).data
          ++ ("?secret=".data
            ++ (sec.data ++ "&period=30&digits=6&algorithm=SHA1".data)))) := by
      apply String.ext
      show ("otpauth://totp/" ++ sanitizeTitle e.title ++ "?secret=" ++ sec
          ++ "&period=30&digits=6&algorithm=SHA1").data = _
      simp [List.append_assoc]
    rw [hcu, parse_constructed _ _ (sanitize_clean e.title htitle) hsne hcs]
  have hpre : ∀ r : Except String String,
      (if strStarts v "otpauth://" then Except.ok v else simpleKeyUri e.title v) = r →
      extract_otp_from_entry e
        = (match r with
           | Except.error c => ExtractOutcome.err c
           | Except.ok uri =>
             match parse_otpauth_uri uri with
             | none => ExtractOutcome.err "invalid_uri_format"
             | some d => ExtractOutcome.ok
                 { d with url := entryUrlOpt e, username := entryUserOpt e }) := by
    intro r hr
    unfold extract_otp_from_entry
    simp only [href, Bool.false_eq_true, if_false]
    rw [huri]
    dsimp only
    rw [hr]
  have hif : (if strStarts v "otpauth://" = true then Except.ok v
      else simpleKeyUri e.title v) = simpleKeyUri e.title v := by
    rw [hnot]
    simp
  refine ⟨?_, ?_, ?_, ?_, ?_⟩
  · intro g hg hlen
    have hchars := searchKey_chars v.data g hg
    have hne : g.map upChar ≠ [] := by
      cases g with
      | nil => exact absurd rfl hchars.1
      | cons a t => simp
    have hguard : ¬((String.mk (g.map upChar)).isEmpty = true
        ∨ (String.mk (g.map upChar)).length < 16) := by
      push_neg
      constructor
      · cases hgm : g.map upChar with
        | nil => exact absurd hgm hne
        | cons a t =>
          rw [strmk_isEmpty_false]
          simp
      · rw [strmk_length, List.length_map]
        omega
    have hsk : simpleKeyUri e.title v
        = Except.ok (constructedUri e.title (String.mk (g.map upChar))) := by
      unfold simpleKeyUri
      rw [hg]
      dsimp only
      rw [if_neg hguard]
    have hcs : ∀ c ∈ (String.mk (g.map upChar)).data, cleanSChar c := by
      intro c hc
      obtain ⟨x, hx, hxc⟩ := List.mem_map.mp hc
      subst hxc
      exact upChar_b32_clean x (hchars.2 x hx)
    rw [hpre _ (hif.trans hsk)]
    simp only [hok (String.mk (g.map upChar)) hne hcs]
  · intro g hg hlen
    have hchars := searchKey_chars v.data g hg
    have hguard : (String.mk (g.map upChar)).isEmpty = true
        ∨ (String.mk (g.map upChar)).length < 16 := by
      right
      rw [strmk_length, List.length_map]
      omega
    have hsk : simpleKeyUri e.title v = Except.error "no_secret_found" := by
      unfold simpleKeyUri
      rw [hg]
      dsimp only
      rw [if_pos hguard]
    rw [hpre _ (hif.trans hsk)]
  · intro hg hpb hlen
    have hchars := isPlainB32_chars (pyStrip v).data hpb
    have hdne : (pyStrip v).data ≠ [] := by
      intro hd
      have : (pyStrip v).length = 0 := by
        rw [show (pyStrip v).length = (pyStrip v).data.length from rfl, hd]
        rfl
      omega
    have hne : (pyStrip v).data.map upChar ≠ [] := by
      cases hpd : (pyStrip v).data with
      | nil => exact absurd hpd hdne
      | cons a t => simp
    have hguard : ¬((upperStr (pyStrip v)).isEmpty = true
        ∨ (upperStr (pyStrip v)).length < 16) := by
      push_neg
      constructor
      · unfold upperStr
        cases hgm : (pyStrip v).data.map upChar with
        | nil => exact absurd hgm hne
        | cons a t =>
          rw [strmk_isEmpty_false]
          simp
      · unfold upperStr
        rw [strmk_length, List.length_map]
        exact hlen
    have hsk : simpleKeyUri e.title v
        = Except.ok (constructedUri e.title (upperStr (pyStrip v))) := by
      unfold simpleKeyUri
      rw [hg]
      dsimp only
      rw [if_pos hpb, if_neg hguard]
    have hcs : ∀ c ∈ (upperStr (pyStrip v)).data, cleanSChar c := by
      intro c hc
      simp only [upperStr] at hc
      obtain ⟨x, hx, hxc⟩ := List.mem_map.mp hc
      subst hxc
      rcases hchars x hx with hb | hb
      · exact upChar_b32_clean x (isB32upper_ci x hb)
      · exact upChar_eq_clean x hb
    rw [hpre _ (hif.trans hsk)]
    simp only [hok (upperStr (pyStrip v)) hne hcs]
  · intro hg hpb hlen
    have hguard : (upperStr (pyStrip v)).isEmpty = true
        ∨ (upperStr (pyStrip v)).length < 16 := by
      right
      unfold upperStr
      rw [strmk_length, List.length_map]
      exact hlen
    have hsk : simpleKeyUri e.title v = Except.error "no_secret_found" := by
      unfold simpleKeyUri
      rw [hg]
      dsimp only
      rw [if_pos hpb, if_pos hguard]
    rw [hpre _ (hif.trans hsk)]
  · intro hg hpb
    have hsk : simpleKeyUri e.title v = Except.error "simple_key_not_supported" := by
      unfold simpleKeyUri
      rw [hg]
      dsimp only
      rw [hpb]
      simp
    rw [hpre _ (hif.trans hsk)]

/-- C10 counterexample: the value `AAAAAAAAAAAAAA==` (fourteen `A`s plus
two `=` padding characters, 16 characters in all) matches neither of the
claim's patterns — it contains no `key` text at all, and it is not a plain
base32 string over A-Z/2-7 because of the `=` signs — so by the claim it
should be skipped as unsupported simple-key format; the code's regex
`^[A-Z2-7]+=*$` accepts the padding, the padded length passes the
16-character check, and the entry is imported with the padding kept in the
secret. -/
theorem C10_counterexample :
    strStarts "AAAAAAAAAAAAAA==" "otpauth://" = false
    ∧ claimPlainBase32 "AAAAAAAAAAAAAA==" = false
    ∧ containsSubstr "AAAAAAAAAAAAAA==" "key" = false
    ∧ containsSubstr (lowerStr "AAAAAAAAAAAAAA==") "key" = false
    ∧ extract_otp_from_entry
        ⟨"Work", none, none, none, none, [("otp", "AAAAAAAAAAAAAA==")], none, "u9"⟩
      = ExtractOutcome.ok
        { secret := "AAAAAAAAAAAAAA==", issuer := none, account := "Work",
          period := 30, digits := 6, algorithm := "SHA1", otype := "totp",
          url := none, username := none } := by
  refine ⟨by decide, by decide, by decide, by decide, by decide⟩

/-- Witness for C10's amended theorem: the plain-base32-with-padding
branch at a concrete entry. -/
theorem C10_simple_key_fallback_witness :
    extract_otp_from_entry
        ⟨"Work", none, none, none, none, [("otp", "AAAAAAAAAAAAAA==")], none, "u9"⟩
      = ExtractOutcome.ok
        { secret := upperStr (pyStrip "AAAAAAAAAAAAAA=="), issuer := none,
          account := sanitizeTitle "Work", period := 30, digits := 6,
          algorithm := "SHA1", otype := "totp",
          url := entryUrlOpt
            ⟨"Work", none, none, none, none, [("otp", "AAAAAAAAAAAAAA==")], none, "u9"⟩,
          username := entryUserOpt
            ⟨"Work", none, none, none, none, [("otp", "AAAAAAAAAAAAAA==")], none, "u9"⟩ } :=
  (C10_simple_key_fallback
      ⟨"Work", none, none, none, none, [("otp", "AAAAAAAAAAAAAA==")], none, "u9"⟩
      "AAAAAAAAAAAAAA==" (by decide) (by decide) (by decide)
      (by decide)).2.2.1 (by decide) (by decide) (by decide)

end KeepassxcOtp
